import Mathlib

/-!
Shallow embedding of the WebGAL_Terre agent core (packages/terre2/src/Modules/agent):
the MCP process bridge (AgentMcpService), the LLM gateway (LlmClientService),
the tool-call retry heuristic (ToolCallRetryService) and the conversation
orchestrator (ChatService).  Where the repository holds several historical
revisions of a service, the embedding follows the newest revision (the one the
specification describes); divergences of older revisions are noted in comments.
-/

namespace WebGAL

/-- A JSON value, as produced by `JSON.parse`.  Numbers are modelled as
integers (no claim depends on fractional values). -/
inductive Json where
  | null
  | bool (b : Bool)
  | num (n : Int)
  | str (s : String)
  | arr (elems : List Json)
  | obj (fields : List (String × Json))
  deriving Repr

namespace Json

/-- JavaScript property access `j.k` on a parsed value: defined fields of an
object, `none` (i.e. `undefined`) everywhere else. -/
def lookup (j : Json) (k : String) : Option Json :=
  match j with
  | .obj fields => fields.lookup k
  | _ => none

/-- JavaScript truthiness of a JSON value (`NaN` does not arise for our
integer-modelled numbers). -/
def truthy : Json → Bool
  | .null => false
  | .bool b => b
  | .num n => n != 0
  | .str s => s != ""
  | .arr _ => true
  | .obj _ => true

end Json

/-- Message roles of the chat history (`ChatMessage.role`). -/
inductive Role where
  | system
  | user
  | assistant
  | tool
  deriving Repr, DecidableEq

/-- `ChatMessage` of llm-client.service.ts (the optional `name` field for tool
messages is never set by the embedded code paths). -/
structure ChatMsg where
  role : Role
  content : String
  deriving Repr, DecidableEq

/-- `McpTool` descriptor (the `inputSchema` field is passed through untouched
by every embedded code path, so it is not modelled). -/
structure McpTool where
  name : String
  description : Option String := none
  deriving Repr, DecidableEq

/-- One tool call requested by the model (`ToolCall.function`): a name and the
raw, unparsed argument string. -/
structure ToolCallReq where
  name : String
  arguments : String
  deriving Repr, DecidableEq

/-! ## AgentMcpService.callTool: result unwrapping (C4)

From the newest revision of `AgentMcpService.callTool`: the envelope returned
by `tools/call` carries its real payload as JSON text in
`result.content[0].text`; an `error` object inside that payload becomes a
structured error with `code`, `hint`, `details`; text that fails to parse as
JSON is returned raw. -/

/-- The structured application-level error built by `callTool` when the parsed
payload carries a truthy `error` member: `error.code`, `error.hint`,
`error.details` are copied onto the thrown `Error` object. -/
structure ToolAppErr where
  message : String
  code : Option Json
  hint : Option Json
  details : Option Json
  deriving Repr

/-- Failures surfaced by `callTool`: protocol/transport failures from
`sendRequest` (timeout, process terminated, JSON-RPC error responses) versus
application-level tool errors found inside the payload. -/
inductive CallFailure where
  | protocol (message : String)
  | toolApp (e : ToolAppErr)
  deriving Repr

/-- A JavaScript string coercion `String(x)` for the values that can reach
`new Error(...)` in the embedded paths.  Only the claimless `message` field
flows through it. -/
def jsToString : Json → String
  | .null => "null"
  | .bool b => if b then "true" else "false"
  | .num n => toString n
  | .str s => s
  | .arr _ => ""
  | .obj _ => "[object Object]"

/-- The guard `result.content && Array.isArray(result.content) &&
result.content[0]?.text` of `callTool`: returns the payload text when the
envelope has a content array whose first element carries a truthy `text`. -/
def contentText (result : Json) : Option String :=
  match result.lookup "content" with
  | some (.arr (c0 :: _)) =>
    match c0.lookup "text" with
    | some (.str t) => if t = "" then none else some t
    | _ => none
  | _ => none

/-- `parsed.error.message || 'Tool call failed'`. -/
def toolErrMessage (e : Json) : String :=
  match e.lookup "message" with
  | some m => if m.truthy then jsToString m else "Tool call failed"
  | none => "Tool call failed"

/-- The unwrapping done by the newest `AgentMcpService.callTool` on a
successful `tools/call` result (chat.service.ts lines 545-601): parse the
nested payload text in its own try/catch (parse failure returns the raw
text), then raise a structured error when the payload carries a truthy
`error`, otherwise return the parsed payload; an envelope without content is
returned as-is.  `parse` stands for `JSON.parse`. -/
def callToolUnwrap (parse : String → Option Json) (result : Json) :
    Except CallFailure Json :=
  match contentText result with
  | some t =>
    match parse t with
    | none => .ok (.str t)
    | some parsed =>
      match parsed.lookup "error" with
      | some e =>
        if e.truthy then
          .error (.toolApp
            { message := toolErrMessage e
              code := e.lookup "code"
              hint := e.lookup "hint"
              details := e.lookup "details" })
        else .ok parsed
      | none => .ok parsed
  | none => .ok result

/-- `callTool` end to end: a rejected `sendRequest` propagates as a
protocol/transport failure (the outer catch of the newest revision rethrows
every error unchanged), a resolved one is unwrapped. -/
def callToolRun (parse : String → Option Json)
    (sendResult : Except String Json) : Except CallFailure Json :=
  match sendResult with
  | .error m => .error (.protocol m)
  | .ok result => callToolUnwrap parse result

/-! ## JSON serialization for previews (`safePreviewArgs`/`safePreviewResult`)

Models `JSON.stringify` (no cycles arise, so the `[unserializable]` branches
are unreachable); escaping is limited to the characters that matter for the
embedded strings.  No claim inspects these preview strings. -/

/-- Minimal JSON string escaping. -/
def escapeChar (c : Char) : List Char :=
  if c = '"' ∨ c = '\\' then ['\\', c]
  else if c = '\n' then ['\\', 'n']
  else [c]

/-- Escape a string for JSON output. -/
def escapeStr (s : String) : String :=
  ⟨s.data.flatMap escapeChar⟩

mutual

/-- `JSON.stringify` on a value. -/
def Json.stringify : Json → String
  | .null => "null"
  | .bool b => if b then "true" else "false"
  | .num n => toString n
  | .str s => "\"" ++ escapeStr s ++ "\""
  | .arr xs => "[" ++ Json.stringifyList xs ++ "]"
  | .obj fs => "\x7b" ++ Json.stringifyFields fs ++ "\x7d"

/-- Comma-joined serialization of array elements. -/
def Json.stringifyList : List Json → String
  | [] => ""
  | [x] => Json.stringify x
  | x :: xs => Json.stringify x ++ "," ++ Json.stringifyList xs

/-- Comma-joined serialization of object fields. -/
def Json.stringifyFields : List (String × Json) → String
  | [] => ""
  | [(k, v)] => "\"" ++ escapeStr k ++ "\":" ++ Json.stringify v
  | (k, v) :: fs =>
    "\"" ++ escapeStr k ++ "\":" ++ Json.stringify v ++ "," ++
      Json.stringifyFields fs

end

/-! ## ChatService: the per-turn tool-call loop (C1)

From chat.service.ts (part_001): the fixed read-only allowlist, argument
parsing/normalization, and the loop over the (truncated) requested tool
calls that records one `Step` per surviving call and invokes
`agentMcp.callTool` only for allowlisted names. -/

/-- `READ_ONLY_TOOLS`: the fixed set of tool names the orchestrator may
auto-execute. -/
def READ_ONLY_TOOLS : List String :=
  ["list_files", "read_file", "search_files", "validate_script",
   "list_project_resources", "list_snapshots", "get_runtime_info"]

/-- The fixed confirmation-required summary recorded on every blocked step. -/
def blockedSummary : String := "写入/危险操作需要确认，已阻止执行"

/-- `safePreviewArgs`: capped JSON preview of arguments. -/
def safePreviewArgs (args : Json) : String :=
  let json := args.stringify
  if json.length > 200 then (json.take 197).push '.' ++ ".." else json

/-- `safePreviewResult`: capped preview of a result, summarizing large arrays
by length and large objects by their first key names. -/
def safePreviewResult (result : Json) : String :=
  let json := result.stringify
  if json.length ≤ 200 then json
  else match result with
    | .arr (x :: xs) => "数组(" ++ toString (x :: xs).length ++ ")"
    | .obj fs =>
      let keys := fs.map Prod.fst
      "对象\x7b" ++ String.intercalate ", " (keys.take 5) ++
        (if keys.length > 5 then ", ..." else "") ++ "\x7d"
    | _ => (json.take 197).push '.' ++ ".."

/-- Insert-or-overwrite of an object field, as `{...args, path: 'game'}`
behaves on parsed-JSON objects (an existing key keeps its position, a new key
is appended); the degenerate spread of a non-object argument value is
modelled as the plain `{path: 'game'}` object. -/
def setPathGame : Json → Json
  | .obj fs =>
    if fs.any (fun kv => kv.1 = "path") then
      .obj (fs.map (fun kv => if kv.1 = "path" then (kv.1, .str "game") else kv))
    else .obj (fs ++ [("path", .str "game")])
  | _ => .obj [("path", .str "game")]

/-- `ChatService.normalizeToolArgs`: on directory-style tools, an absent,
null, `'.'` or `'./'` path defaults to `'game'`. -/
def normalizeToolArgs (name : String) (args : Json) : Json :=
  let needsGameDefault :=
    name = "list_files" ∨ name = "search_files" ∨ name = "list_snapshots"
  if needsGameDefault then
    match args.lookup "path" with
    | none => setPathGame args
    | some .null => setPathGame args
    | some (.str p) => if p = "." ∨ p = "./" then setPathGame args else args
    | some _ => args
  else args

/-- The error details recorded on a failed step (`err?.message`, `err?.code`,
`err?.hint`, `err?.details`; a protocol error carries none of the latter). -/
structure StepError where
  message : String
  code : Option Json := none
  hint : Option Json := none
  details : Option Json := none
  deriving Repr

/-- `err?.message || '执行失败'`. -/
def stepErrMessage : CallFailure → String
  | .protocol m => if m = "" then "执行失败" else m
  | .toolApp e => if e.message = "" then "执行失败" else e.message

/-- The `error` field pushed on a failed step. -/
def stepErrorOf (e : CallFailure) : StepError :=
  match e with
  | .protocol m => { message := if m = "" then "执行失败" else m }
  | .toolApp t =>
    { message := if t.message = "" then "执行失败" else t.message
      code := t.code, hint := t.hint, details := t.details }

/-- `ChatStepDto`: one tool call's record within a turn.  Wall-clock duration
is not modelled. -/
structure Step where
  name : String
  args : Json
  blocked : Bool := false
  summary : String
  result : Option Json := none
  error : Option StepError := none
  deriving Repr

/-- One iteration of the tool-call loop of `ChatService.chat`: parse the raw
arguments (anything unparsable degrades to `{}`), block the step when the
name is not on the read-only allowlist, otherwise normalize the arguments and
execute through `callTool`.  Returns the recorded step and the `callTool`
invocation made, if any.  `parse` stands for `JSON.parse`; `exec` for
`agentMcp.callTool`. -/
def runToolCall (parse : String → Option Json)
    (exec : String → Json → Except CallFailure Json)
    (call : ToolCallReq) : Step × Option (String × Json) :=
  let name := call.name
  let args :=
    if call.arguments = "" then Json.obj []
    else (parse call.arguments).getD (Json.obj [])
  if READ_ONLY_TOOLS.contains name then
    let args1 := normalizeToolArgs name args
    match exec name args1 with
    | .ok r =>
      ({ name := name, args := args1, summary := safePreviewResult r
         result := some r }, some (name, args1))
    | .error e =>
      ({ name := name, args := args1, summary := stepErrMessage e
         error := some (stepErrorOf e) }, some (name, args1))
  else
    ({ name := name, args := args, blocked := true,
       summary := blockedSummary }, none)

/-- The tool-call phase of a batch turn (`ChatService.chat`): the requested
calls are truncated to the per-turn cap `maxSteps`
(`toolCalls.slice(0, Math.max(0, MAX_TOOL_STEPS))`, default 12), then each
surviving call is processed in order.  Returns the recorded steps and the
`callTool` invocations actually made. -/
def runToolCalls (parse : String → Option Json)
    (exec : String → Json → Except CallFailure Json)
    (maxSteps : Nat) (calls : List ToolCallReq) :
    List Step × List (String × Json) :=
  let limited := calls.take maxSteps
  (limited.map (fun c => (runToolCall parse exec c).1),
   limited.filterMap (fun c => (runToolCall parse exec c).2))

/-- The tool-call phase of a streaming turn (`ChatService.chatStream`): its
loop body is identical to the batch one except for emitting each step as an
SSE event, which does not change the recorded steps or the invocations. -/
def runToolCallsStream (parse : String → Option Json)
    (exec : String → Json → Except CallFailure Json)
    (maxSteps : Nat) (calls : List ToolCallReq) :
    List Step × List (String × Json) :=
  let limited := calls.take maxSteps
  (limited.map (fun c => (runToolCall parse exec c).1),
   limited.filterMap (fun c => (runToolCall parse exec c).2))

/-! ## ToolCallRetryService (C6, C7)

From tool-call-retry.service.ts: the ordered intent patterns (each a
case-insensitive regex of shape `(?:alts)` or `(?:alts).{0,10}(?:alts2)`),
the intent analysis with its tool-name-mention fallback, the retry decision
`analyzeRetry`, and the nudge construction. -/

/-- Lower-case a character sequence (the `i` regex flag; only ASCII letters
are affected, which covers every cased letter in the patterns). -/
def lowerChars (l : List Char) : List Char := l.map Char.toLower

/-- Substring test `a.includes(b)` on character lists. -/
def containsChars (hay needle : List Char) : Bool :=
  match hay with
  | [] => needle.isPrefixOf ([] : List Char)
  | _ :: rest => needle.isPrefixOf hay || containsChars rest needle

/-- `a.includes(b)` on strings (case-sensitive, as used on the pattern
descriptions). -/
def containsSub (hay needle : String) : Bool :=
  containsChars hay.data needle.data

/-- One entry of `TOOL_INTENT_PATTERNS`: every pattern in the source is an
alternation `(?:a|b|…)`, optionally followed by `.{0,10}` and a second
alternation. -/
structure IntentPattern where
  first : List String
  second : Option (List String)
  description : String
  deriving Repr

/-- Search for a second-alternation match within a gap of at most `fuel`
characters, none of which may be a line terminator (regex `.` with no `s`
flag). -/
def gapSearch (alts : List (List Char)) : Nat → List Char → Bool
  | fuel, l =>
    alts.any (fun a => a.isPrefixOf l) ||
      match fuel, l with
      | 0, _ => false
      | _, [] => false
      | f + 1, c :: rest =>
        !(c = '\n' || c = '\r' || c = Char.ofNat 0x2028 ||
            c = Char.ofNat 0x2029) &&
          gapSearch alts f rest

/-- Does the pattern match starting exactly at this (already lower-cased)
position? -/
def testAt (p : IntentPattern) (l : List Char) : Bool :=
  p.first.any fun a =>
    let al := lowerChars a.data
    al.isPrefixOf l &&
      match p.second with
      | none => true
      | some alts2 =>
        gapSearch (alts2.map (fun b => lowerChars b.data)) 10 (l.drop al.length)

/-- Does `f` hold on some suffix of the list? -/
def anySuffix (f : List Char → Bool) : List Char → Bool
  | [] => f []
  | c :: rest => f (c :: rest) || anySuffix f rest

/-- `pattern.test(message)`: the regex matches somewhere in the message. -/
def patternTest (p : IntentPattern) (message : String) : Bool :=
  anySuffix (testAt p) (lowerChars message.data)

/-- `TOOL_INTENT_PATTERNS`, in source order. -/
def TOOL_INTENT_PATTERNS : List IntentPattern :=
  [ { first := ["列出", "显示", "查看", "列一下", "看看", "list"],
      second := some ["文件", "目录", "资源", "场景", "脚本"],
      description := "list files" },
    { first := ["读取", "读一下", "打开", "查看", "看看", "read"],
      second := some ["文件", "内容", "脚本", "场景"],
      description := "read file" },
    { first := ["写入", "写", "修改", "更新", "编辑", "创建", "新建",
                "write", "edit", "create"],
      second := none,
      description := "write file" },
    { first := ["搜索", "查找", "找", "搜", "search", "find"],
      second := some ["文件", "内容", "关键字"],
      description := "search files" },
    { first := ["验证", "检查", "校验", "validate", "check"],
      second := some ["脚本", "语法", "格式"],
      description := "validate script" },
    { first := ["项目", "游戏"],
      second := some ["信息", "状态", "配置"],
      description := "project info" },
    { first := ["运行时", "runtime"],
      second := some ["信息", "状态"],
      description := "runtime info" },
    { first := ["快照", "snapshot", "回滚", "rollback", "恢复", "restore"],
      second := none,
      description := "snapshot operations" } ]

/-- The if-chain that maps a detected intent description to category-specific
suggestions drawn from the catalog, in source order. -/
def suggestFor (desc : String) (toolNames : List String) : List String :=
  (if containsSub desc "list" then
    (if toolNames.contains "list_files" then ["list_files"] else []) ++
    (if toolNames.contains "list_project_resources" then
      ["list_project_resources"] else [])
   else []) ++
  (if containsSub desc "read" then
    (if toolNames.contains "read_file" then ["read_file"] else []) else []) ++
  (if containsSub desc "write" || containsSub desc "edit" then
    (if toolNames.contains "write_to_file" then ["write_to_file"] else []) ++
    (if toolNames.contains "replace_in_file" then ["replace_in_file"] else [])
   else []) ++
  (if containsSub desc "search" then
    (if toolNames.contains "search_files" then ["search_files"] else [])
   else []) ++
  (if containsSub desc "validate" then
    (if toolNames.contains "validate_script" then ["validate_script"] else [])
   else []) ++
  (if containsSub desc "snapshot" || containsSub desc "rollback" then
    (if toolNames.contains "list_snapshots" then ["list_snapshots"] else []) ++
    (if toolNames.contains "restore_snapshot" then ["restore_snapshot"]
     else [])
   else []) ++
  (if containsSub desc "runtime" then
    (if toolNames.contains "get_runtime_info" then ["get_runtime_info"]
     else [])
   else [])

/-- Does the message mention a catalog tool name literally, either with
underscores replaced by spaces or verbatim (both sides lower-cased)? -/
def mentionsTool (message name : String) : Bool :=
  let ml := lowerChars message.data
  let nl := lowerChars name.data
  containsChars ml (nl.map (fun c => if c = '_' then ' ' else c)) ||
    containsChars ml nl

/-- `[...new Set(xs)]`: deduplicate keeping first occurrences. -/
def dedupFirst : List String → List String
  | [] => []
  | x :: xs => x :: dedupFirst (xs.filter (fun y => y ≠ x))
termination_by l => l.length
decreasing_by
  simp only [List.length_cons]
  exact Nat.lt_succ_of_le (List.length_filter_le _ _)

/-- Result of `analyzeUserIntent`. -/
structure IntentAnalysis where
  needsTool : Bool
  detectedIntent : Option String
  suggestedTools : List String
  deriving Repr, DecidableEq

/-- `ToolCallRetryService.analyzeUserIntent`: first matching intent pattern
wins and selects category suggestions; with no pattern match, a literal
mention of a catalog tool name counts as `explicit tool mention`; suggestions
default to the first three catalog names when the specific selection is
empty. -/
def analyzeUserIntent (message : String) (availableTools : List McpTool) :
    IntentAnalysis :=
  let toolNames := availableTools.map (fun t => t.name)
  match TOOL_INTENT_PATTERNS.find? (fun p => patternTest p message) with
  | some p =>
    let uniqueTools := dedupFirst (suggestFor p.description toolNames)
    { needsTool := true
      detectedIntent := some p.description
      suggestedTools :=
        if uniqueTools.length > 0 then uniqueTools else toolNames.take 3 }
  | none =>
    let mentionedTools := toolNames.filter (fun n => mentionsTool message n)
    if mentionedTools.length > 0 then
      let uniqueTools := dedupFirst mentionedTools
      { needsTool := true
        detectedIntent := some "explicit tool mention"
        suggestedTools :=
          if uniqueTools.length > 0 then uniqueTools else toolNames.take 3 }
    else
      { needsTool := false
        detectedIntent := none
        suggestedTools := toolNames.take 3 }

/-- `RETRY_NUDGE_TEMPLATES`, in source order. -/
def RETRY_NUDGE_TEMPLATES : List String :=
  [ "请使用可用的工具来完成这个任务。你可以调用 {suggestedTools} 等工具来获取所需信息。",
    "我注意到你没有使用工具。请直接调用相关工具（如 {suggestedTools}）来执行操作，而不是仅给出文字建议。",
    "这个任务需要使用工具来完成。请使用 tool_calls 来调用 {suggestedTools}，我会帮你执行。" ]

/-- `String.replace` with a string pattern: replace the first occurrence. -/
def replaceFirstChars (needle repl : List Char) : List Char → List Char
  | [] => []
  | c :: rest =>
    if needle.isPrefixOf (c :: rest) then
      repl ++ (c :: rest).drop needle.length
    else c :: replaceFirstChars needle repl rest

/-- `String.replace` on strings. -/
def replaceFirst (s needle repl : String) : String :=
  ⟨replaceFirstChars needle.data repl.data s.data⟩

/-- `ToolCallRetryService.buildNudgeMessage`: pick the template indexed by
the attempt number (clamped to the last), interpolate up to three suggested
tool names, and emit a user-role system hint. -/
def buildNudgeMessage (attemptCount : Nat) (suggestedTools : List String) :
    ChatMsg :=
  let templateIndex := min (attemptCount - 1) (RETRY_NUDGE_TEMPLATES.length - 1)
  let template := (RETRY_NUDGE_TEMPLATES.get? templateIndex).getD ""
  let toolList := String.intercalate "、" (suggestedTools.take 3)
  let content := replaceFirst template "{suggestedTools}" toolList
  { role := .user, content := "[系统提示] " ++ content }

/-- `ToolCallRetryConfig` (the service merges the caller's partial config
over its defaults; the embedding takes the merged record). -/
structure RetryCfg where
  maxRetries : Nat
  retryDelayMs : Nat
  enableSmartDetection : Bool
  deriving Repr, DecidableEq

/-- `RetryContext`. -/
structure RetryCtx where
  attemptCount : Nat
  originalMessage : String
  previousReasons : List String
  deriving Repr, DecidableEq

/-- `ToolCallRetryService.createContext`. -/
def createContext (originalMessage : String) : RetryCtx :=
  { attemptCount := 0, originalMessage := originalMessage,
    previousReasons := [] }

/-- `RetryResult`. -/
structure RetryRes where
  shouldRetry : Bool
  reason : Option String := none
  nudgeMessage : Option ChatMsg := none
  deriving Repr, DecidableEq

/-- `ToolCallRetryService.analyzeRetry`: no retry when tool calls were
produced, the attempt ceiling is reached, or the catalog is empty; with
smart detection the user intent gates the retry; otherwise retry
unconditionally.  The source mutates the context in place; the embedding
returns the updated context. -/
def analyzeRetry (ctx : RetryCtx) (toolCalls : List ToolCallReq)
    (availableTools : List McpTool) (cfg : RetryCfg) : RetryRes × RetryCtx :=
  if toolCalls.length > 0 then ({ shouldRetry := false }, ctx)
  else if ctx.attemptCount ≥ cfg.maxRetries then
    ({ shouldRetry := false
       reason := some ("已达到最大重试次数 (" ++ toString cfg.maxRetries ++ ")") },
     ctx)
  else if availableTools.length = 0 then ({ shouldRetry := false }, ctx)
  else if cfg.enableSmartDetection then
    let ia := analyzeUserIntent ctx.originalMessage availableTools
    if !ia.needsTool then ({ shouldRetry := false }, ctx)
    else
      let reason :=
        "检测到 \"" ++ (ia.detectedIntent.getD "") ++ "\" 意图，但 LLM 未调用工具"
      let ctx1 : RetryCtx :=
        { ctx with previousReasons := ctx.previousReasons ++ [reason]
                   attemptCount := ctx.attemptCount + 1 }
      ({ shouldRetry := true, reason := some reason
         nudgeMessage :=
           some (buildNudgeMessage ctx1.attemptCount ia.suggestedTools) },
       ctx1)
  else
    let ctx1 : RetryCtx := { ctx with attemptCount := ctx.attemptCount + 1 }
    let reason :=
      "LLM 未产生工具调用 (尝试 " ++ toString ctx1.attemptCount ++ "/" ++
        toString cfg.maxRetries ++ ")"
    let ctx2 : RetryCtx :=
      { ctx1 with previousReasons := ctx1.previousReasons ++ [reason] }
    ({ shouldRetry := true, reason := some reason
       nudgeMessage :=
         some (buildNudgeMessage ctx2.attemptCount
           ((availableTools.take 3).map (fun t => t.name))) },
     ctx2)

/-! ## ChatService.chatWithRetry (C6, C7, C9)

The retry loop around the LLM gateway: generate, consult `analyzeRetry`;
on retry, push the prior assistant text (if any) and the nudge onto the
per-turn message window, then regenerate.  The model is abstracted as a
function from the regeneration index (0 = the initial call) to its reply. -/

/-- One LLM reply: free text plus any requested tool calls. -/
structure LlmResult where
  content : String
  toolCalls : List ToolCallReq := []
  deriving Repr, DecidableEq

/-- The evolving state of one `chatWithRetry` invocation: the latest reply,
the retry context, how many times the LLM was called, every message pushed
onto the window, and the nudges among them. -/
structure RetryRunState where
  result : LlmResult
  ctx : RetryCtx
  llmCalls : Nat
  pushed : List ChatMsg
  nudges : List ChatMsg
  deriving Repr, DecidableEq

/-- The `while (true)` body of `chatWithRetry`, fuelled: the fuel
`maxRetries + 1` used by `chatWithRetry` is never exhausted because every
retry raises `attemptCount`, which `analyzeRetry` caps at `maxRetries`. -/
def retryLoop (llm : Nat → LlmResult) (availableTools : List McpTool)
    (cfg : RetryCfg) : Nat → RetryRunState → RetryRunState
  | 0, st => st
  | fuel + 1, st =>
    let a := analyzeRetry st.ctx st.result.toolCalls availableTools cfg
    if a.1.shouldRetry then
      let pushed1 := st.pushed ++
        (match a.1.nudgeMessage with
         | some nudge =>
           (if st.result.content ≠ "" then
             [{ role := .assistant, content := st.result.content }]
            else []) ++ [nudge]
         | none => [])
      let nudges1 := st.nudges ++ a.1.nudgeMessage.toList
      retryLoop llm availableTools cfg fuel
        { result := llm st.llmCalls, ctx := a.2, llmCalls := st.llmCalls + 1,
          pushed := pushed1, nudges := nudges1 }
    else { st with ctx := a.2 }

/-- `ChatService.chatWithRetry`: initial generation followed by the retry
loop. -/
def chatWithRetry (llm : Nat → LlmResult) (availableTools : List McpTool)
    (cfg : RetryCfg) (userMessage : String) : RetryRunState :=
  retryLoop llm availableTools cfg (cfg.maxRetries + 1)
    { result := llm 0, ctx := createContext userMessage, llmCalls := 1,
      pushed := [], nudges := [] }

/-- The annotation appended to a tool-less final reply in `ChatService.chat`
(`[系统: 已尝试 N 次引导工具调用，模型仍选择文本回复]`). -/
def annotateNoTools (content : String) (attempts : Nat) : String :=
  content ++
    (if attempts > 0 then
      "\n\n[系统: 已尝试 " ++ toString attempts ++
        " 次引导工具调用，模型仍选择文本回复]"
     else "")

/-! ## LlmClientService.chat (C8)

From llm-client.service.ts (the revision with the retry loop).  One attempt
is modelled by its observable outcome; the `for (attempt = 0; attempt < 3;
attempt++)` loop with its inner `throw`/`catch` interplay is translated
control-flow-faithfully: note that the `throw new HttpException(...)` for a
non-retriable HTTP status sits inside the `try`, so the `catch` block also
retries it while `attempt < 2`. -/

/-- The observable outcome of one `fetch` of the chat-completions endpoint. -/
inductive FetchOutcome where
  | ok (result : LlmResult)
  | httpErr (status : Nat)
  | netErr
  deriving Repr, DecidableEq

/-- The failure classes surfaced by the gateway, by the `HttpStatus` carried
on the thrown `HttpException`: `serviceUnavailable` (503) for a missing
credential, `badGateway` (502) for transient failures, `badRequest` (400)
for permanent ones. -/
inductive GatewayErr where
  | credentialMissing
  | badRequest
  | badGateway
  deriving Repr, DecidableEq

/-- The observable trace of one `LlmClientService.chat` call: its outcome,
how many HTTP requests were issued, and the backoff delays awaited. -/
structure GatewayRun where
  result : Except GatewayErr LlmResult
  requests : Nat
  delays : List Nat
  deriving Repr

/-- `500 * (attempt === 0 ? 1 : 3)`. -/
def backoffDelay (attempt : Nat) : Nat := 500 * (if attempt = 0 then 1 else 3)

/-- The retry loop of `LlmClientService.chat`, one unfolding per attempt.
The fuel starts at 3, matching `attempt < 3`; the fuel-0 fallback models the
unreachable `throw` after the loop. -/
def llmAttempt (fetch : Nat → FetchOutcome) :
    Nat → Nat → Nat → List Nat → GatewayRun
  | 0, _, reqs, ds => { result := .error .badGateway, requests := reqs, delays := ds }
  | fuel + 1, attempt, reqs, ds =>
    match fetch attempt with
    | .ok r => { result := .ok r, requests := reqs + 1, delays := ds }
    | .httpErr status =>
      let retriable := status = 429 ∨ status ≥ 500
      if retriable ∧ attempt < 2 then
        llmAttempt fetch fuel (attempt + 1) (reqs + 1) (ds ++ [backoffDelay attempt])
      else
        -- the HttpException thrown here is caught by the catch block below
        if attempt < 2 then
          llmAttempt fetch fuel (attempt + 1) (reqs + 1)
            (ds ++ [backoffDelay attempt])
        else
          { result :=
              .error (if status ≥ 500 then .badGateway else .badRequest)
            requests := reqs + 1, delays := ds }
    | .netErr =>
      if attempt < 2 then
        llmAttempt fetch fuel (attempt + 1) (reqs + 1) (ds ++ [backoffDelay attempt])
      else { result := .error .badGateway, requests := reqs + 1, delays := ds }

/-- `LlmClientService.chat`: fail immediately with 503 when no API key is
configured, otherwise run the three-attempt loop. -/
def llmChat (hasApiKey : Bool) (fetch : Nat → FetchOutcome) : GatewayRun :=
  if !hasApiKey then
    { result := .error .credentialMissing, requests := 0, delays := [] }
  else llmAttempt fetch 3 0 0 []

/-! ## AgentMcpService lifecycle (C5)

From the newest revision of `AgentMcpService` (chat.service.ts lines
394-824): `start` stops a previous instance, spawns the child, performs the
`initialize` handshake — whose failure calls `stop()` before rethrowing —
and then fetches the catalog.  The environment (spawn pid, handshake and
catalog outcomes) is abstracted as inputs. -/

/-- The bridge-owned state: the child process handle, project root, catalog,
handshake flag, plus the set of live child processes that `spawn`/`kill`
manipulate (to state that no child outlives a failed start). -/
structure BridgeState where
  mcpProcess : Option Nat
  projectRoot : Option String
  tools : List McpTool
  initDone : Bool
  alive : List Nat
  deriving Repr, DecidableEq

/-- The freshly constructed service. -/
def initialBridge : BridgeState :=
  { mcpProcess := none, projectRoot := none, tools := [], initDone := false,
    alive := [] }

/-- `cleanup()`: reset every field (pending-request rejection is modelled in
the correlation state machine below). -/
def bridgeCleanup (st : BridgeState) : BridgeState :=
  { st with mcpProcess := none, projectRoot := none, tools := [],
            initDone := false }

/-- `stop()`: a no-op when nothing runs; otherwise SIGTERM (escalating to
SIGKILL after the grace period) guarantees the child is dead, then
`cleanup()`. -/
def stopBridge (st : BridgeState) : BridgeState :=
  match st.mcpProcess with
  | none => st
  | some pid =>
    bridgeCleanup { st with alive := st.alive.filter (fun p => p ≠ pid) }

/-- `getStatus()`. -/
structure AgentStatus where
  running : Bool
  projectRoot : Option String
  tools : List McpTool
  deriving Repr, DecidableEq

/-- `getStatus()`: `running` is `mcpProcess !== null`. -/
def getStatus (st : BridgeState) : AgentStatus :=
  { running := st.mcpProcess.isSome, projectRoot := st.projectRoot,
    tools := st.tools }

/-- The environment a `start()` call runs against: whether a binary was
resolved, the pid `spawn` produces, whether the `initialize` handshake
succeeds (failure covers both an error response and the 60s timeout) with
its error text, and the two `tools/list` results `fetchTools` may read. -/
structure StartEnv where
  binFound : Bool
  newPid : Nat
  handshakeOk : Bool
  handshakeErr : String
  toolsFirst : List McpTool
  toolsRetry : List McpTool
  deriving Repr, DecidableEq

/-- `fetchTools()`: take the first `tools/list` result, retrying once after
500ms when it is empty; failures are swallowed (modelled by the lists being
given).  Bounded to the success path, which is the only one a completed
handshake reaches in the claims. -/
def fetchToolsResult (env : StartEnv) : List McpTool :=
  if env.toolsFirst.length = 0 then env.toolsRetry else env.toolsFirst

/-- `start(projectRoot, options)`: stop any running instance, resolve the
binary, spawn, run the `initialize` handshake — on failure `stop()` and
rethrow `Failed to initialize MCP: …` — then fetch the catalog.  (The lock
check of the newest revision cannot abort startup: its `throw` is swallowed
by the surrounding parse-failure `catch`, so it is omitted.)  Returns the
thrown error, if any, and the resulting state. -/
def startBridge (st : BridgeState) (projectRoot : String) (env : StartEnv) :
    Except String Unit × BridgeState :=
  let st1 := if st.mcpProcess.isSome then stopBridge st else st
  let st2 := { st1 with projectRoot := some projectRoot }
  if !env.binFound then (.error "MCP binary not found", st2)
  else
    let st3 := { st2 with mcpProcess := some env.newPid,
                          alive := st2.alive ++ [env.newPid] }
    -- initialize(): skipped if already done (never the case after cleanup)
    if st3.initDone then
      (.ok (), { st3 with tools := fetchToolsResult env })
    else if env.handshakeOk then
      let st4 := { st3 with initDone := true }
      (.ok (), { st4 with tools := fetchToolsResult env })
    else
      (.error ("Failed to initialize MCP: " ++ env.handshakeErr),
       stopBridge st3)

/-! ## Pending-request correlation (C2)

From `sendRequest`, `handleResponse`, the per-request timeout callback and
`cleanup` of `AgentMcpService`.  The `pendingRequests` map is modelled by
the list of outstanding ids; armed `setTimeout` timers are tracked
separately so that `clearTimeout` is where the source puts it, and a
`timeout` event can only fire while its timer is armed (a cleared or
already-fired timer never fires).  Every `resolve`/`reject` of a pending
entry appends its id to `settles`. -/

/-- The correlation state: outstanding entries, armed timers, ids ever
registered, and the settle log. -/
structure PendingState where
  pending : List Nat
  armed : List Nat
  registered : List Nat
  settles : List Nat
  deriving Repr, DecidableEq

/-- The state before any request. -/
def initialPending : PendingState :=
  { pending := [], armed := [], registered := [], settles := [] }

/-- `sendRequest`: register a fresh id with a 60s timer.  (Freshness of the
monotone `++this.requestId` is a hypothesis of the theorems.) -/
def registerRequest (s : PendingState) (id : Nat) : PendingState :=
  { s with pending := s.pending ++ [id], armed := s.armed ++ [id],
           registered := s.registered ++ [id] }

/-- `handleResponse`: an id with no pending entry is ignored; otherwise the
entry is deleted, its timer cleared, and it is settled (resolved or
rejected) exactly here. -/
def handleResponse (s : PendingState) (id : Nat) : PendingState :=
  if id ∈ s.pending then
    { s with pending := s.pending.erase id, armed := s.armed.erase id,
             settles := s.settles ++ [id] }
  else s

/-- The timeout callback of `sendRequest`: it can only run while its timer
is armed; firing consumes the one-shot timer, deletes only its own entry,
and rejects it. -/
def fireTimeout (s : PendingState) (id : Nat) : PendingState :=
  if id ∈ s.armed then
    { s with pending := s.pending.erase id, armed := s.armed.erase id,
             settles := s.settles ++ [id] }
  else s

/-- `cleanup` on process termination or error: clear every pending entry's
timer, reject it, and empty the map. -/
def cleanupPending (s : PendingState) : PendingState :=
  { s with pending := [],
           armed := s.armed.filter (fun id => id ∉ s.pending),
           settles := s.settles ++ s.pending }

/-- The events that can reach the correlation state. -/
inductive McpEvent where
  | register (id : Nat)
  | response (id : Nat)
  | timeout (id : Nat)
  | terminate
  deriving Repr, DecidableEq

/-- Event application. -/
def applyEvent (s : PendingState) : McpEvent → PendingState
  | .register id => registerRequest s id
  | .response id => handleResponse s id
  | .timeout id => fireTimeout s id
  | .terminate => cleanupPending s

/-- Run an event trace from the initial state. -/
def runEvents (events : List McpEvent) : PendingState :=
  events.foldl applyEvent initialPending

/-- Freshness of registered ids along a trace (the source's ids come from a
monotone counter, so no id is registered twice). -/
def freshOK (seen : List Nat) : List McpEvent → Bool
  | [] => true
  | .register id :: rest => id ∉ seen && freshOK (seen ++ [id]) rest
  | _ :: rest => freshOK seen rest

/-! ## Newline-delimited frame decoding (C3)

From `AgentMcpService.processLines` (part_003 lines 180-198): inbound chunks
accumulate in `lineBuffer`; the buffer is split on newlines, the trailing
fragment is retained, and every complete line is trimmed, skipped when
empty, parsed, and dispatched.  Chunks are modelled as character sequences
(the decoded form in which the source manipulates them). -/

/-- Split a character sequence into its complete newline-terminated lines
and the trailing fragment — the effect of `buffer.split('\n')` followed by
popping the last element. -/
def linesOf : List Char → List (List Char) × List Char
  | [] => ([], [])
  | c :: rest =>
    let p := linesOf rest
    if c = '\n' then (([] : List Char) :: p.1, p.2)
    else
      match p.1 with
      | [] => ([], c :: p.2)
      | l :: ls => ((c :: l) :: ls, p.2)

/-- JavaScript `line.trim()`: strip leading and trailing whitespace. -/
def trimChars (l : List Char) : List Char :=
  (l.dropWhile Char.isWhitespace).reverse.dropWhile Char.isWhitespace |>.reverse

/-- Dispatch the complete lines of one `processLines` pass: each line is
trimmed, empty lines are skipped, and `JSON.parse` (abstracted as `parse`)
feeds `handleResponse`; an unparsable line is logged and dropped. -/
def dispatchLines (parse : List Char → Option Json) (ls : List (List Char)) :
    List Json :=
  ls.filterMap fun l =>
    let t := trimChars l
    if t = [] then none else parse t

/-- The decoder state: the messages dispatched so far (in order) and the
retained `lineBuffer`. -/
structure DecoderState where
  dispatched : List Json
  buffer : List Char

/-- The decoder before any chunk. -/
def initialDecoder : DecoderState := { dispatched := [], buffer := [] }

/-- The character-level half of one `stdout.on('data')` callback: append the
already-decoded chunk text to the buffer and run `processLines`.  The full
callback is `feedChunkBytes` below, which first applies the per-chunk
`chunk.toString('utf8')` decode. -/
def feedChunk (parse : List Char → Option Json) (s : DecoderState)
    (chunk : List Char) : DecoderState :=
  let p := linesOf (s.buffer ++ chunk)
  { dispatched := s.dispatched ++ dispatchLines parse p.1, buffer := p.2 }

/-- Feed a sequence of already-decoded text chunks. -/
def feedAll (parse : List Char → Option Json) (s : DecoderState)
    (chunks : List (List Char)) : DecoderState :=
  chunks.foldl (feedChunk parse) s

/-- The U+FFFD replacement character. -/
def replacementChar : Char := Char.ofNat 0xFFFD

/-- The running state of the WHATWG UTF-8 decoder: how many continuation
bytes are still needed, the partial code point, and the bounds the next
continuation byte must satisfy. -/
structure Utf8State where
  needed : Nat
  cp : Nat
  lower : Nat
  upper : Nat
  deriving Repr, DecidableEq

/-- The decoder's initial state. -/
def utf8Init : Utf8State := { needed := 0, cp := 0, lower := 0x80, upper := 0xBF }

/-- Handle one byte in the initial state: ASCII is emitted, a valid lead
byte opens a pending sequence with its boundary constraints (which encode
the overlong/surrogate/out-of-range exclusions), anything else — a stray
continuation byte, `0xC0`/`0xC1`, or `≥ 0xF5` — is one error. -/
def utf8Start (b : Nat) : List Char × Utf8State :=
  if b < 0x80 then ([Char.ofNat b], utf8Init)
  else if b < 0xC2 then ([replacementChar], utf8Init)
  else if b < 0xE0 then
    ([], { needed := 1, cp := b - 0xC0, lower := 0x80, upper := 0xBF })
  else if b < 0xF0 then
    ([], { needed := 2, cp := b - 0xE0
           lower := if b = 0xE0 then 0xA0 else 0x80
           upper := if b = 0xED then 0x9F else 0xBF })
  else if b < 0xF5 then
    ([], { needed := 3, cp := b - 0xF0
           lower := if b = 0xF0 then 0x90 else 0x80
           upper := if b = 0xF4 then 0x8F else 0xBF })
  else ([replacementChar], utf8Init)

/-- Handle one byte of a chunk: mid-sequence, an in-bounds continuation byte
extends the code point (emitting it when complete); an out-of-bounds byte
emits one U+FFFD and is reprocessed from the initial state (the WHATWG
"restore byte" rule). -/
def utf8Byte (st : Utf8State) (b : Nat) : List Char × Utf8State :=
  if st.needed = 0 then utf8Start b
  else if st.lower ≤ b ∧ b ≤ st.upper then
    if st.needed = 1 then
      ([Char.ofNat (st.cp * 0x40 + (b - 0x80))], utf8Init)
    else
      ([], { needed := st.needed - 1, cp := st.cp * 0x40 + (b - 0x80),
             lower := 0x80, upper := 0xBF })
  else
    (replacementChar :: (utf8Start b).1, (utf8Start b).2)

/-- Run the decoder over a byte list from a given state. -/
def utf8Run (st : Utf8State) : List Nat → List Char × Utf8State
  | [] => ([], st)
  | b :: rest =>
    let p := utf8Byte st b
    let q := utf8Run p.2 rest
    (p.1 ++ q.1, q.2)

/-- `Buffer.toString('utf8')` on one chunk: the WHATWG UTF-8 decoder in
replacement mode (which V8/Node implements), with end-of-input mid-sequence
yielding one final U+FFFD.  Crucially the source applies this **per chunk**
(`this.lineBuffer += chunk.toString('utf8')`, with no `StringDecoder`
carrying partial sequences across chunks), so a multi-byte character split
across two chunks decodes to replacement characters. -/
def utf8DecodeLossy (l : List Nat) : List Char :=
  (utf8Run utf8Init l).1 ++
    (if (utf8Run utf8Init l).2.needed = 0 then [] else [replacementChar])

/-- One full `stdout.on('data')` callback at byte level:
`this.lineBuffer += chunk.toString('utf8'); this.processLines()`. -/
def feedChunkBytes (parse : List Char → Option Json) (s : DecoderState)
    (chunk : List Nat) : DecoderState :=
  feedChunk parse s (utf8DecodeLossy chunk)

/-- Feed a sequence of inbound stdout byte chunks. -/
def feedAllBytes (parse : List Char → Option Json) (s : DecoderState)
    (chunks : List (List Nat)) : DecoderState :=
  chunks.foldl (feedChunkBytes parse) s

/-! ## ChatService.chat — the per-turn session/history machine (C9, C10)

From `ChatService.chat` (part_001 lines 216-368).  The key structural fact:
`const messages = history.slice(-MAX_HISTORY)` creates a copy, so everything
`chatWithRetry` pushes (prior assistant text, nudges) lands on that copy and
never on the stored session history. -/

/-- The seed system message of `getOrCreateSession`. -/
def defaultSystemContent : String :=
  "你是 WebGAL 脚本编辑助手。回答简洁、具体；如需建议改动，先给出方案与理由；只读任务（列文件/读取/校验等）可直接完成；涉及写入/回滚等高风险操作时，只能准备\"变更摘要/建议\"，等待用户确认。"

/-- `getOrCreateSession`: a fresh session starts with the seed system
message; an existing one is returned as-is. -/
def getOrCreateHistory (existing : Option (List ChatMsg)) : List ChatMsg :=
  existing.getD [{ role := .system, content := defaultSystemContent }]

/-- Re-pin the assembled system prompt at index 0: overwrite the content of
a leading system message, or unshift a new one. -/
def repinSystem (sys : String) (history : List ChatMsg) : List ChatMsg :=
  match history with
  | h :: rest =>
    if h.role = .system then { role := .system, content := sys } :: rest
    else { role := .system, content := sys } :: h :: rest
  | [] => [{ role := .system, content := sys }]

/-- The inbound user message, with the optional scene context prefix. -/
def mkUserMsg (message : String) (scenePath : Option String) : ChatMsg :=
  { role := .user
    content :=
      match scenePath with
      | some sp => "[scene=" ++ sp ++ "]\n" ++ message
      | none => message }

/-- `MAX_HISTORY`. -/
def MAX_HISTORY : Nat := 12

/-- `history.slice(-n)`: the most recent `n` entries (the whole list when it
is shorter). -/
def lastN (n : Nat) (l : List ChatMsg) : List ChatMsg := l.drop (l.length - n)

/-- One step-summary bullet of the final reply. -/
def stepSummaryLine (s : Step) : String :=
  if s.blocked then
    "- [未执行] " ++ s.name ++ "(" ++ safePreviewArgs s.args ++ "): " ++ s.summary
  else
    match s.error with
    | some _ =>
      "- [失败] " ++ s.name ++ "(" ++ safePreviewArgs s.args ++ "): " ++ s.summary
    | none =>
      "- " ++ s.name ++ "(" ++ safePreviewArgs s.args ++ "): " ++ s.summary

/-- The final assistant text of the tool-calls branch: step bullets, the
step-cap notice, the retry note, wrapped in the fixed frame. -/
def toolSummaryContent (steps : List Step) (truncated : Bool)
    (maxSteps attempts : Nat) : String :=
  let base := steps.map stepSummaryLine
  let withCap :=
    if truncated then
      base ++ ["- [提示] 已达到单轮工具步数上限 " ++ toString maxSteps ++
        "，剩余步骤未执行"]
    else base
  let withRetry :=
    if attempts > 0 then
      ("- [重试] 经过 " ++ toString attempts ++ " 次重试后成功调用工具") :: withCap
    else withCap
  "我已按你的请求尝试调用工具：\n" ++ String.intercalate "\n" withRetry ++
    "\n\n如需对文件进行修改，我可以先准备 diff 供你确认，再执行写入。"

/-- Everything observable about one batch turn. -/
structure TurnResult where
  newHistory : List ChatMsg
  window : List ChatMsg
  content : String
  steps : List Step
  invocations : List (String × Json)
  nudges : List ChatMsg
  llmCalls : Nat
  attempts : Nat

/-- `ChatService.chat`, one turn over a given stored history: re-pin the
system prompt, append the user message to the session history, build the
window as a copy of the last `MAX_HISTORY` entries, run `chatWithRetry`
(whose pushes go to the window copy), then either return the annotated text
reply or execute the (truncated) tool calls and return the step summary; in
both branches exactly the final assistant message is appended to the session
history. -/
def chatTurn (parse : String → Option Json)
    (exec : String → Json → Except CallFailure Json) (llm : Nat → LlmResult)
    (tools : List McpTool) (cfg : RetryCfg) (maxSteps : Nat) (sys : String)
    (message : String) (scenePath : Option String)
    (history0 : List ChatMsg) : TurnResult :=
  let h1 := repinSystem sys history0
  let userMsg := mkUserMsg message scenePath
  let h2 := h1 ++ [userMsg]
  let window := lastN MAX_HISTORY h2
  let rrs := chatWithRetry llm tools cfg message
  let toolCalls := rrs.result.toolCalls
  if toolCalls.length = 0 then
    let content := annotateNoTools rrs.result.content rrs.ctx.attemptCount
    { newHistory := h2 ++ [{ role := .assistant, content := content }]
      window := window ++ rrs.pushed
      content := content, steps := [], invocations := []
      nudges := rrs.nudges, llmCalls := rrs.llmCalls
      attempts := rrs.ctx.attemptCount }
  else
    let r := runToolCalls parse exec maxSteps toolCalls
    let content := toolSummaryContent r.1 (maxSteps < toolCalls.length)
      maxSteps rrs.ctx.attemptCount
    { newHistory := h2 ++ [{ role := .assistant, content := content }]
      window := window ++ rrs.pushed
      content := content, steps := r.1, invocations := r.2
      nudges := rrs.nudges, llmCalls := rrs.llmCalls
      attempts := rrs.ctx.attemptCount }

/-! ## Inputs used by concrete witnesses and counterexamples -/

/-- A `JSON.parse` stand-in that fails on everything (the argument strings of
the concrete runs are not valid JSON, so they degrade to `{}`). -/
def parseNone : String → Option Json := fun _ => none

/-- A `callTool` stand-in that fails on everything; the blocked-call claims
never reach it. -/
def execFail : String → Json → Except CallFailure Json :=
  fun _ _ => .error (.protocol "")

/-- Thirteen mutating calls, one more than the default per-turn step cap. -/
def c1Calls : List ToolCallReq :=
  List.replicate 13 { name := "write_to_file", arguments := "" }

/-- The step records and invocations of a turn requesting `c1Calls` under
the default cap of 12. -/
def c1Run : List Step × List (String × Json) :=
  runToolCalls parseNone execFail 12 c1Calls

/-- A concrete correlation trace: two requests, an out-of-order response, a
timeout, a late response for the timed-out id (to be ignored), then process
termination. -/
def c2Events : List McpEvent :=
  [.register 1, .register 2, .response 2, .timeout 1, .response 1]

/-- A concrete `JSON.parse` stand-in for the framing scenarios: wraps the
line verbatim (any injective parse works; the dispatch machinery never
inspects the parsed value). -/
def parseStub : List Char → Option Json := fun l => some (.str ⟨l⟩)

/-- The first response line of the spec scenario. -/
def c3Line1 : List Char := "\x7b\"id\":1,\"result\":\x7b\x7d\x7d".data

/-- The second response line of the spec scenario. -/
def c3Line2 : List Char := "\x7b\"id\":2,\"result\":\x7b\x7d\x7d".data

/-- One stdout chunk holding both complete lines. -/
def c3TwoLineChunk : List Char := c3Line1 ++ '\n' :: c3Line2 ++ ['\n']

/-- The two-line scenario chunk as the bytes on the wire (pure ASCII). -/
def c3TwoLineBytes : List Nat := c3TwoLineChunk.map Char.toNat

/-- An ASCII-boundary byte split of the first scenario line. -/
def c3AsciiA : List Nat := (c3Line1.take 7).map Char.toNat

/-- The rest of the first scenario line plus its terminating newline. -/
def c3AsciiB : List Nat := ((c3Line1.drop 7).map Char.toNat) ++ [0x0A]

/-- First chunk of the byte-level counterexample: `a` followed by the lead
byte of the two-byte UTF-8 encoding of `é` (`0xC3 0xA9`). -/
def c3SplitA : List Nat := [0x61, 0xC3]

/-- Second chunk of the byte-level counterexample: the continuation byte of
`é`, then the newline. -/
def c3SplitB : List Nat := [0xA9, 0x0A]

/-- A concrete `JSON.parse` stand-in for the C4 witness: one known error
payload parses, everything else fails. -/
def c4Parse : String → Option Json := fun s =>
  if s = "errpayload" then
    some (.obj [("error", .obj [("code", .str "E_NOT_FOUND"),
      ("message", .str "nope"), ("hint", .str "check path")])])
  else none

/-- A `tools/call` envelope whose payload text is the known error payload. -/
def c4Envelope : Json :=
  .obj [("content", .arr [.obj [("text", .str "errpayload")]])]

/-- A `tools/call` envelope whose payload text is not JSON. -/
def c4EnvelopeBad : Json :=
  .obj [("content", .arr [.obj [("text", .str "notjson")]])]

/-- Does a fetch outcome take the failure path of the loop body? -/
def fetchFails : FetchOutcome → Bool
  | .ok _ => false
  | .httpErr _ => true
  | .netErr => true

/-- The error class the gateway assigns to the failure that ends the loop:
bad-gateway for HTTP ≥500 and network errors, bad-request for everything
else (including 429). -/
def classifyFinal : FetchOutcome → GatewayErr
  | .httpErr s => if s ≥ 500 then .badGateway else .badRequest
  | _ => .badGateway

/-- The retry reason recorded on a smart-detection retry (abbreviates the
interpolated literal of `analyzeRetry`). -/
def smartReason (msg : String) (tools : List McpTool) : String :=
  "检测到 \"" ++ ((analyzeUserIntent msg tools).detectedIntent.getD "") ++
    "\" 意图，但 LLM 未调用工具"

/-- The bridge-state well-formedness every reachable state enjoys: the live
children are exactly the current handle, and a stopped bridge has no
completed handshake. -/
def BridgeWF (st : BridgeState) : Prop :=
  st.alive = st.mcpProcess.toList ∧ (st.mcpProcess = none → st.initDone = false)

/-- The message window `ChatService.chat` builds and hands to the first
generation: the stored history after re-pin and user append, trimmed to the
most recent `MAX_HISTORY` entries. -/
def builtWindow (sys message : String) (scenePath : Option String)
    (history0 : List ChatMsg) : List ChatMsg :=
  lastN MAX_HISTORY (repinSystem sys history0 ++ [mkUserMsg message scenePath])

/-- A concrete turn for the C9 counterexample: a fresh session, a
write-intent message, a text-only model — two nudges get issued. -/
def c9Turn : TurnResult :=
  chatTurn parseNone execFail (fun _ => { content := "text", toolCalls := [] })
    [{ name := "write_to_file", description := none }]
    { maxRetries := 2, retryDelayMs := 500, enableSmartDetection := true }
    12 "SYS" "写入 start.txt" none
    [{ role := .system, content := defaultSystemContent }]

/-- A 13-message stored history (system seed plus 12 turns' worth) for the
C10 witness. -/
def c10History : List ChatMsg :=
  { role := .system, content := defaultSystemContent } ::
    (List.range 12).map (fun i => { role := .user, content := toString i })

/-- The safety invariant of the correlation state: the armed timers are
exactly the pending entries, pending ids are unique, and every registered id
is either still pending and unsettled or settled exactly once; unregistered
ids are never settled nor pending. -/
def PendingInv (s : PendingState) : Prop :=
  s.armed = s.pending ∧ s.pending.Nodup ∧
  (∀ id, id ∈ s.registered →
    s.settles.count id + (if id ∈ s.pending then 1 else 0) = 1) ∧
  (∀ id, id ∉ s.registered → s.settles.count id = 0 ∧ id ∉ s.pending)

end WebGAL

namespace WebGAL

/-! # Theorems -/

/-- Claim C1 (corrected): for every tool call requested in a turn whose name
is outside the fixed read-only set, neither the batch loop nor the streaming
loop ever invokes `callTool` — every invocation made names a read-only tool —
and every such call **among the first `maxSteps` requested** is recorded as a
step with `blocked = true` and the fixed confirmation-required summary.
(Calls beyond the per-turn cap are dropped without any step, which is what
the original claim misses; see `c1_counterexample`.) -/
theorem c1_mutating_never_executed (parse : String → Option Json)
    (exec : String → Json → Except CallFailure Json) (maxSteps : Nat)
    (calls : List ToolCallReq) :
    (∀ inv ∈ (runToolCalls parse exec maxSteps calls).2,
        inv.1 ∈ READ_ONLY_TOOLS) ∧
    (∀ i c, calls.get? i = some c → i < maxSteps →
        c.name ∉ READ_ONLY_TOOLS →
        ∃ s, (runToolCalls parse exec maxSteps calls).1.get? i = some s ∧
          s.blocked = true ∧ s.summary = blockedSummary ∧ s.name = c.name) ∧
    runToolCallsStream parse exec maxSteps calls =
      runToolCalls parse exec maxSteps calls := by
  refine ⟨?_, ?_, rfl⟩
  · intro inv hinv
    simp only [runToolCalls, List.mem_filterMap] at hinv
    obtain ⟨c, _, hc⟩ := hinv
    by_cases hro : c.name ∈ READ_ONLY_TOOLS
    · have hname : inv.1 = c.name := by
        simp only [runToolCall] at hc
        rw [if_pos (by simpa using hro)] at hc
        rcases hexec : exec c.name (normalizeToolArgs c.name
          (if c.arguments = "" then Json.obj []
           else (parse c.arguments).getD (Json.obj []))) with r | e <;>
          rw [hexec] at hc <;> simp only [Option.some_inj] at hc <;>
          exact (congrArg Prod.fst hc).symm
      rw [hname]; exact hro
    · rw [runToolCall, if_neg (by simpa using hro)] at hc
      exact absurd hc (by simp)
  · intro i c hget hi hro
    have htake : (calls.take maxSteps).get? i = some c := by
      rw [List.get?_eq_getElem?, List.getElem?_take_of_lt hi,
        ← List.get?_eq_getElem?]
      exact hget
    refine ⟨(runToolCall parse exec c).1, ?_, ?_⟩
    · show (List.map _ (calls.take maxSteps)).get? i = _
      rw [List.get?_map, htake]
      rfl
    · rw [runToolCall, if_neg (by simpa using hro)]
      exact ⟨rfl, rfl, rfl⟩

/-- Witness for C1 at a concrete turn: a single `write_to_file` request is
blocked with the fixed summary and produces no invocation. -/
theorem c1_witness :
    ∃ s, (runToolCalls parseNone execFail 12
        [{ name := "write_to_file", arguments := "" }]).1.get? 0 = some s ∧
      s.blocked = true ∧ s.summary = blockedSummary ∧ s.name = "write_to_file" :=
  (c1_mutating_never_executed parseNone execFail 12
    [{ name := "write_to_file", arguments := "" }]).2.1 0
    { name := "write_to_file", arguments := "" } rfl (by decide) (by decide)

/-- `handleResponse` never touches the registration log. -/
theorem registered_handleResponse (s : PendingState) (id : Nat) :
    (handleResponse s id).registered = s.registered := by
  unfold handleResponse; split <;> rfl

/-- `fireTimeout` never touches the registration log. -/
theorem registered_fireTimeout (s : PendingState) (id : Nat) :
    (fireTimeout s id).registered = s.registered := by
  unfold fireTimeout; split <;> rfl

/-- While the armed timers coincide with the pending entries, a firing
timeout behaves exactly like a matching response for its id. -/
theorem fireTimeout_eq_handleResponse {s : PendingState} (id : Nat)
    (ha : s.armed = s.pending) : fireTimeout s id = handleResponse s id := by
  unfold fireTimeout handleResponse
  rw [ha]

/-- Registering a fresh id preserves the correlation invariant. -/
theorem pendingInv_register {s : PendingState} {id : Nat}
    (h : PendingInv s) (hfresh : id ∉ s.registered) :
    PendingInv (registerRequest s id) := by
  obtain ⟨ha, hn, h3, h4⟩ := h
  have hidp : id ∉ s.pending := (h4 id hfresh).2
  refine ⟨by simp [registerRequest, ha], ?_, ?_, ?_⟩
  · simpa [registerRequest, List.nodup_append, hn] using hidp
  · intro id' hr
    rcases List.mem_append.mp hr with h' | h'
    · have hne : id' ≠ id := fun heq => hfresh (heq ▸ h')
      have := h3 id' h'
      simpa [registerRequest, List.mem_append, hne] using this
    · have heq : id' = id := by simpa using h'
      subst heq
      simp [registerRequest, (h4 id' hfresh).1]
  · intro id' hnr
    simp only [registerRequest, List.mem_append] at hnr ⊢
    push_neg at hnr
    obtain ⟨hnr1, hnr2⟩ := hnr
    have hne : id' ≠ id := by simpa using hnr2
    refine ⟨(h4 id' hnr1).1, ?_⟩
    push_neg
    exact ⟨(h4 id' hnr1).2, by simpa using hne⟩

/-- A response (matching or stray) preserves the correlation invariant. -/
theorem pendingInv_response {s : PendingState} (id : Nat)
    (h : PendingInv s) : PendingInv (handleResponse s id) := by
  obtain ⟨ha, hn, h3, h4⟩ := h
  unfold handleResponse
  by_cases hp : id ∈ s.pending
  · rw [if_pos hp]
    refine ⟨by simp [ha], hn.erase id, ?_, ?_⟩
    · intro id' hr
      by_cases heq : id' = id
      · subst heq
        have h0 : s.settles.count id' = 0 := by
          have := h3 id' hr
          rw [if_pos hp] at this
          omega
        have hnm : id' ∉ s.pending.erase id' := fun hmem =>
          (((hn.mem_erase_iff).mp hmem).1) rfl
        simp [List.count_append, h0, hnm]
      · have hcount : (s.settles ++ [id]).count id' = s.settles.count id' := by
          simp [List.count_append, heq]
        have hmem : id' ∈ s.pending.erase id ↔ id' ∈ s.pending := by
          rw [hn.mem_erase_iff]
          exact ⟨fun x => x.2, fun x => ⟨heq, x⟩⟩
        rw [hcount]
        simpa [hmem] using h3 id' hr
    · intro id' hnr
      obtain ⟨hc0, hnp⟩ := h4 id' hnr
      have hne : id' ≠ id := fun heq => hnp (heq ▸ hp)
      constructor
      · simp [List.count_append, hc0, hne]
      · exact fun hmem => hnp (List.mem_of_mem_erase hmem)
  · rw [if_neg hp]
    exact ⟨ha, hn, h3, h4⟩

/-- Termination cleanup preserves the correlation invariant (and empties the
pending table, settling every outstanding entry). -/
theorem pendingInv_cleanup {s : PendingState} (h : PendingInv s) :
    PendingInv (cleanupPending s) := by
  obtain ⟨ha, hn, h3, h4⟩ := h
  refine ⟨?_, List.nodup_nil, ?_, ?_⟩
  · show s.armed.filter _ = ([] : List Nat)
    rw [ha]
    simp
  · intro id' hr
    have := h3 id' hr
    by_cases hp : id' ∈ s.pending
    · rw [if_pos hp] at this
      have hone : s.pending.count id' = 1 := List.count_eq_one_of_mem hn hp
      simp only [cleanupPending, List.count_append]
      simp [hone]
      omega
    · rw [if_neg hp] at this
      have hzero : s.pending.count id' = 0 :=
        List.count_eq_zero_of_not_mem hp
      simp only [cleanupPending, List.count_append]
      simp [hzero]
      omega
  · intro id' hnr
    obtain ⟨hc0, hnp⟩ := h4 id' hnr
    have hzero : s.pending.count id' = 0 := List.count_eq_zero_of_not_mem hnp
    simp [cleanupPending, List.count_append, hc0, hzero]

/-- Appending a terminate event never disturbs registration freshness. -/
theorem freshOK_append_terminate (es : List McpEvent) :
    ∀ seen : List Nat,
      freshOK seen (es ++ [McpEvent.terminate]) = freshOK seen es := by
  induction es with
  | nil => intro seen; rfl
  | cons e rest ih =>
    intro seen
    cases e with
    | register id =>
      show (decide (id ∉ seen) && freshOK (seen ++ [id])
          (rest ++ [McpEvent.terminate])) =
        (decide (id ∉ seen) && freshOK (seen ++ [id]) rest)
      rw [ih]
    | response id => exact ih seen
    | timeout id => exact ih seen
    | terminate => exact ih seen

/-- The correlation invariant holds along every fresh-id event trace. -/
theorem pendingInv_run (events : List McpEvent) :
    ∀ s : PendingState, PendingInv s → freshOK s.registered events = true →
      PendingInv (events.foldl applyEvent s) := by
  induction events with
  | nil => exact fun s h _ => h
  | cons e rest ih =>
    intro s h hf
    cases e with
    | register id =>
      simp only [freshOK, Bool.and_eq_true] at hf
      obtain ⟨hfr, hrest⟩ := hf
      have hfr' : id ∉ s.registered := by simpa using hfr
      exact ih _ (pendingInv_register h hfr') hrest
    | response id =>
      refine ih _ (pendingInv_response id h) ?_
      show freshOK (handleResponse s id).registered rest = true
      rw [registered_handleResponse]
      exact hf
    | timeout id =>
      have heq := fireTimeout_eq_handleResponse (s := s) id h.1
      refine ih _ ?_ ?_
      · show PendingInv (fireTimeout s id)
        rw [heq]
        exact pendingInv_response id h
      · show freshOK (fireTimeout s id).registered rest = true
        rw [registered_fireTimeout]
        exact hf
    | terminate =>
      exact ih _ (pendingInv_cleanup h) hf

/-- Claim C2: along every trace of fresh registrations, matching or stray
responses, timer expiries and process termination, every settle happens at
most once; a registered id is settled exactly once unless it is still
pending (and after a terminating cleanup nothing is pending, so every
registered id is settled exactly once); unregistered ids are never settled.
Moreover a response whose id has no pending entry is ignored entirely, a
timeout whose timer is no longer armed does nothing, and a firing timeout
removes only its own entry. -/
theorem c2_settled_exactly_once (events : List McpEvent)
    (hfresh : freshOK [] events = true) :
    (∀ id, (runEvents events).settles.count id ≤ 1) ∧
    (∀ id, id ∈ (runEvents events).registered →
      (runEvents events).settles.count id +
        (if id ∈ (runEvents events).pending then 1 else 0) = 1) ∧
    (∀ id, id ∉ (runEvents events).registered →
      (runEvents events).settles.count id = 0) ∧
    ((runEvents (events ++ [McpEvent.terminate])).pending = [] ∧
      ∀ id, id ∈ (runEvents (events ++ [McpEvent.terminate])).registered →
        (runEvents (events ++ [McpEvent.terminate])).settles.count id = 1) ∧
    (∀ s id, id ∉ s.pending → handleResponse s id = s) ∧
    (∀ s id, id ∉ s.armed → fireTimeout s id = s) ∧
    (∀ s id j, j ≠ id → (j ∈ (fireTimeout s id).pending ↔ j ∈ s.pending)) := by
  have hinit : PendingInv initialPending := by
    refine ⟨rfl, List.nodup_nil, ?_, ?_⟩
    · intro id h
      exact absurd h (List.not_mem_nil id)
    · intro id _
      exact ⟨rfl, List.not_mem_nil id⟩
  have hrun : PendingInv (runEvents events) :=
    pendingInv_run events initialPending hinit hfresh
  have hrunT : PendingInv (runEvents (events ++ [McpEvent.terminate])) :=
    pendingInv_run _ initialPending hinit
      (by rw [freshOK_append_terminate]; exact hfresh)
  have hcleanup : runEvents (events ++ [McpEvent.terminate]) =
      cleanupPending (runEvents events) := by
    unfold runEvents
    rw [List.foldl_append]
    rfl
  have hpendingT : (runEvents (events ++ [McpEvent.terminate])).pending = [] := by
    rw [hcleanup]
    rfl
  refine ⟨?_, hrun.2.2.1, fun id h => (hrun.2.2.2 id h).1,
    ⟨hpendingT, ?_⟩, ?_, ?_, ?_⟩
  · intro id
    by_cases hreg : id ∈ (runEvents events).registered
    · have := hrun.2.2.1 id hreg
      omega
    · rw [(hrun.2.2.2 id hreg).1]
      omega
  · intro id hreg
    have := hrunT.2.2.1 id hreg
    rw [hpendingT] at this
    simpa using this
  · intro s id hnp
    unfold handleResponse
    rw [if_neg hnp]
  · intro s id hna
    unfold fireTimeout
    rw [if_neg hna]
  · intro s id j hne
    unfold fireTimeout
    split
    · exact List.mem_erase_of_ne hne
    · exact Iff.rfl

/-- Witness for C2 at a concrete trace: two requests, an out-of-order
response, a timeout, a late (ignored) response, then termination — both ids
end up settled exactly once and nothing is left pending. -/
theorem c2_witness :
    freshOK [] c2Events = true ∧
    (runEvents (c2Events ++ [McpEvent.terminate])).pending = [] ∧
    (runEvents (c2Events ++ [McpEvent.terminate])).settles.count 1 = 1 ∧
    (runEvents (c2Events ++ [McpEvent.terminate])).settles.count 2 = 1 := by
  refine ⟨by decide, ?_, ?_, ?_⟩
  · exact (c2_settled_exactly_once c2Events (by decide)).2.2.2.1.1
  · exact (c2_settled_exactly_once c2Events (by decide)).2.2.2.1.2 1 (by decide)
  · exact (c2_settled_exactly_once c2Events (by decide)).2.2.2.1.2 2 (by decide)

/-- Splitting off complete lines commutes with concatenation: the complete
lines of `a ++ b` are those of `a`, then the first line of `b` extended on
the left by `a`'s trailing fragment, then the rest of `b`'s lines; the
fragment is `b`'s unless `b` has no newline at all. -/
theorem linesOf_append (a b : List Char) :
    linesOf (a ++ b) =
      ((linesOf a).1 ++
        (match (linesOf b).1 with
         | [] => []
         | l :: ls => ((linesOf a).2 ++ l) :: ls),
       if (linesOf b).1 = [] then (linesOf a).2 ++ (linesOf b).2
       else (linesOf b).2) := by
  induction a with
  | nil =>
    rcases hb : linesOf b with ⟨Lb, rb⟩
    cases Lb <;> simp [linesOf, hb]
  | cons c a ih =>
    rcases ha : linesOf a with ⟨La, ra⟩
    rcases hb : linesOf b with ⟨Lb, rb⟩
    rw [ha, hb] at ih
    show linesOf (c :: (a ++ b)) = _
    by_cases hc : c = '\n'
    · subst hc
      simp only [linesOf, ih, ha, hb]
      cases Lb <;> simp
    · simp only [linesOf, ih, ha, hb]
      cases La with
      | nil => cases Lb <;> simp [hc]
      | cons l ls => simp [hc]

/-- The trailing fragment returned by `linesOf` never contains a newline. -/
theorem newline_not_mem_linesOf_rem (l : List Char) :
    '\n' ∉ (linesOf l).2 := by
  induction l with
  | nil => exact List.not_mem_nil _
  | cons c rest ih =>
    rcases hr : linesOf rest with ⟨L, r⟩
    rw [hr] at ih
    by_cases hc : c = '\n'
    · subst hc; simpa [linesOf, hr] using ih
    · cases L with
      | nil =>
        simp only [linesOf, hr, if_neg hc, List.mem_cons, not_or]
        exact ⟨fun h => hc h.symm, ih⟩
      | cons l ls =>
        simpa [linesOf, hr, hc] using ih

/-- A newline-free sequence has no complete line: it stays in the buffer. -/
theorem linesOf_of_no_newline (l : List Char) (h : '\n' ∉ l) :
    linesOf l = ([], l) := by
  induction l with
  | nil => rfl
  | cons c rest ih =>
    have hc : ¬ c = '\n' := fun heq => h (heq ▸ List.mem_cons_self c rest)
    have ih' := ih (fun hm => h (List.mem_cons_of_mem c hm))
    simp [linesOf, ih', hc]

/-- Feeding two chunks one after the other is the same as feeding their
concatenation: the heart of the chunk-boundary invariance. -/
theorem dispatchLines_append (parse : List Char → Option Json)
    (xs ys : List (List Char)) :
    dispatchLines parse (xs ++ ys) =
      dispatchLines parse xs ++ dispatchLines parse ys :=
  List.filterMap_append xs ys _

theorem feedChunk_append (parse : List Char → Option Json)
    (s : DecoderState) (a b : List Char) :
    feedChunk parse (feedChunk parse s a) b = feedChunk parse s (a ++ b) := by
  rcases hp : linesOf (s.buffer ++ a) with ⟨P, rp⟩
  have hnl : '\n' ∉ rp := by
    have h := newline_not_mem_linesOf_rem (s.buffer ++ a)
    rwa [hp] at h
  have hrp : linesOf rp = ([], rp) := linesOf_of_no_newline rp hnl
  have hA := linesOf_append rp b
  have hB := linesOf_append (s.buffer ++ a) b
  rw [hrp] at hA
  rw [hp] at hB
  have hassoc : s.buffer ++ (a ++ b) = (s.buffer ++ a) ++ b :=
    (List.append_assoc _ _ _).symm
  rcases hb : linesOf b with ⟨Lb, rb⟩
  rw [hb] at hA hB
  cases Lb with
  | nil =>
    simp at hA hB
    simp only [feedChunk, hp, hA, dispatchLines_append]
    simp [hB, dispatchLines, List.append_assoc]
  | cons l0 ls0 =>
    simp at hA hB
    simp only [feedChunk, hp, hA, dispatchLines_append]
    simp [hB, dispatchLines_append, List.append_assoc]

/-- Feeding a first chunk and then the rest equals feeding one concatenated
chunk. -/
theorem feedAll_cons_join (parse : List Char → Option Json)
    (cs : List (List Char)) :
    ∀ (s : DecoderState) (c : List Char),
      feedAll parse s (c :: cs) = feedChunk parse s (c ++ cs.flatten) := by
  induction cs with
  | nil => intro s c; simp [feedAll, feedChunk]
  | cons d ds ih =>
    intro s c
    show feedAll parse (feedChunk parse s c) (d :: ds) = _
    rw [ih (feedChunk parse s c) d, feedChunk_append]
    rw [show (d :: ds).flatten = d ++ ds.flatten from rfl]

/-- The character-level decoder is invariant under re-chunking of decoded
text: feeding any sequence of text chunks equals feeding their
concatenation. -/
theorem feedAll_eq_feedChunk_flatten (parse : List Char → Option Json)
    (chunks : List (List Char)) :
    feedAll parse initialDecoder chunks =
      feedChunk parse initialDecoder chunks.flatten := by
  cases chunks with
  | nil => rfl
  | cons c cs => exact feedAll_cons_join parse cs initialDecoder c

/-- Running the UTF-8 decoder over an ASCII prefix emits exactly its
characters and passes the initial state on to the rest. -/
theorem utf8Run_ascii (a : List Nat) :
    ∀ b : List Nat, (∀ x ∈ a, x < 0x80) →
      utf8Run utf8Init (a ++ b) =
        (a.map Char.ofNat ++ (utf8Run utf8Init b).1,
         (utf8Run utf8Init b).2) := by
  induction a with
  | nil => intro b _; simp
  | cons x rest ih =>
    intro b h
    have hx : x < 0x80 := h x (List.mem_cons_self _ _)
    have hstep : utf8Byte utf8Init x = ([Char.ofNat x], utf8Init) := by
      unfold utf8Byte utf8Start utf8Init
      simp [hx]
    have htail := ih b (fun y hy => h y (List.mem_cons_of_mem _ hy))
    show utf8Run utf8Init (x :: (rest ++ b)) = _
    simp only [utf8Run, hstep, htail]
    simp

/-- Claim C3 (corrected): the decoder is re-chunking-invariant exactly for
chunkings whose per-chunk `toString('utf8')` decode agrees with decoding the
whole stream — i.e. splits at UTF-8 character boundaries.  Any split of an
ASCII stream qualifies (second conjunct), so the spec's ASCII scenarios
hold at byte level: the two-lines-in-one-chunk feed dispatches both
messages from one callback (third conjunct), and at the character level
re-chunking invariance holds unconditionally (fourth conjunct).  At
arbitrary byte boundaries the invariance fails, because each chunk is
decoded independently: see `c3_counterexample`. -/
theorem c3_char_boundary_invariance :
    (∀ (parse : List Char → Option Json) (chunks : List (List Nat)),
      utf8DecodeLossy chunks.flatten =
        (chunks.map utf8DecodeLossy).flatten →
      feedAllBytes parse initialDecoder chunks =
        feedChunkBytes parse initialDecoder chunks.flatten) ∧
    (∀ a b : List Nat, (∀ x ∈ a, x < 0x80) →
      utf8DecodeLossy (a ++ b) =
        utf8DecodeLossy a ++ utf8DecodeLossy b) ∧
    (feedChunkBytes parseStub initialDecoder c3TwoLineBytes).dispatched =
      [Json.str ⟨c3Line1⟩, Json.str ⟨c3Line2⟩] ∧
    (∀ (parse : List Char → Option Json) (chunks : List (List Char)),
      feedAll parse initialDecoder chunks =
        feedChunk parse initialDecoder chunks.flatten) := by
  refine ⟨?_, ?_, rfl, feedAll_eq_feedChunk_flatten⟩
  · intro parse chunks h
    have h1 : feedAllBytes parse initialDecoder chunks =
        feedAll parse initialDecoder (chunks.map utf8DecodeLossy) := by
      unfold feedAllBytes feedAll
      rw [List.foldl_map]
      rfl
    rw [h1, feedAll_eq_feedChunk_flatten, ← h]
    rfl
  · intro a b h
    have ha := utf8Run_ascii a b h
    have ha0 := utf8Run_ascii a [] h
    rw [List.append_nil] at ha0
    unfold utf8DecodeLossy
    rw [ha, ha0]
    simp [utf8Run, utf8Init]

/-- Witness for C3 at a concrete character-boundary split: the first
scenario line cut after 7 ASCII characters still dispatches exactly one
message, equal to the unsplit feed. -/
theorem c3_witness :
    (feedAllBytes parseStub initialDecoder [c3AsciiA, c3AsciiB]).dispatched =
      [Json.str ⟨c3Line1⟩] := by
  have h := c3_char_boundary_invariance.1 parseStub [c3AsciiA, c3AsciiB]
    (by decide)
  rw [h]
  rfl

/-- Counterexample for C3 as stated: splitting the byte stream of the line
`aé` between the two bytes of `é` makes each chunk decode its half to
U+FFFD, so the split feed dispatches a different message than the unsplit
feed — byte-boundary re-chunking invariance is false of the program. -/
theorem c3_counterexample :
    c3SplitA ++ c3SplitB = [0x61, 0xC3, 0xA9, 0x0A] ∧
    (feedAllBytes parseStub initialDecoder
      [[0x61, 0xC3, 0xA9, 0x0A]]).dispatched =
      [Json.str ⟨[Char.ofNat 0x61, Char.ofNat 0xE9]⟩] ∧
    (feedAllBytes parseStub initialDecoder [c3SplitA, c3SplitB]).dispatched =
      [Json.str ⟨[Char.ofNat 0x61, replacementChar, replacementChar]⟩] ∧
    ¬ (feedAllBytes parseStub initialDecoder [c3SplitA, c3SplitB]).dispatched =
      (feedAllBytes parseStub initialDecoder
        [[0x61, 0xC3, 0xA9, 0x0A]]).dispatched := by
  refine ⟨rfl, rfl, rfl, ?_⟩
  intro h
  rw [show (feedAllBytes parseStub initialDecoder
      [c3SplitA, c3SplitB]).dispatched =
      [Json.str ⟨[Char.ofNat 0x61, replacementChar, replacementChar]⟩]
      from rfl,
    show (feedAllBytes parseStub initialDecoder
      [[0x61, 0xC3, 0xA9, 0x0A]]).dispatched =
      [Json.str ⟨[Char.ofNat 0x61, Char.ofNat 0xE9]⟩] from rfl] at h
  simp only [List.cons.injEq, and_true, Json.str.injEq] at h
  exact absurd h (by decide)

/-- Claim C4: a `tools/call` envelope whose payload text parses as JSON
carrying a truthy `error` object makes `callTool` raise a structured
application error exposing exactly that object's `code`, `hint` and
`details` (a category distinct from protocol/transport failures, which
surface as `CallFailure.protocol`); payload text that fails to parse as JSON
is returned raw as a successful result. -/
theorem c4_structured_tool_errors :
    (∀ (parse : String → Option Json) (res : Json) (t : String) (p e : Json),
      contentText res = some t → parse t = some p →
      p.lookup "error" = some e → e.truthy = true →
      callToolUnwrap parse res = .error (.toolApp
        { message := toolErrMessage e, code := e.lookup "code",
          hint := e.lookup "hint", details := e.lookup "details" })) ∧
    (∀ (parse : String → Option Json) (res : Json) (t : String),
      contentText res = some t → parse t = none →
      callToolUnwrap parse res = .ok (.str t)) ∧
    (∀ (parse : String → Option Json) (m : String),
      callToolRun parse (.error m) = .error (.protocol m)) := by
  refine ⟨?_, ?_, fun _ _ => rfl⟩
  · intro parse res t p e hct hp he htr
    simp [callToolUnwrap, hct, hp, he, htr]
  · intro parse res t hct hp
    simp [callToolUnwrap, hct, hp]

/-- Witness for C4 at a concrete envelope: an `E_NOT_FOUND` payload becomes
a structured error carrying its code and hint, and an unparsable payload is
returned as raw text. -/
theorem c4_witness :
    callToolUnwrap c4Parse c4Envelope = .error (.toolApp
      { message := "nope", code := some (.str "E_NOT_FOUND"),
        hint := some (.str "check path"), details := none }) ∧
    callToolUnwrap c4Parse c4EnvelopeBad = .ok (.str "notjson") := by
  constructor
  · exact c4_structured_tool_errors.1 c4Parse c4Envelope "errpayload"
      (.obj [("error", .obj [("code", .str "E_NOT_FOUND"),
        ("message", .str "nope"), ("hint", .str "check path")])])
      (.obj [("code", .str "E_NOT_FOUND"), ("message", .str "nope"),
        ("hint", .str "check path")]) rfl rfl rfl rfl
  · exact c4_structured_tool_errors.2.1 c4Parse c4EnvelopeBad "notjson" rfl rfl

/-- Claim C5: whenever the mandatory `initialize` handshake fails (or times
out), `start()` rethrows `Failed to initialize MCP: …` and the bridge is
left stopped: no child process handle remains, `getStatus()` reports
`running = false`, and no spawned child is left alive. -/
theorem c5_handshake_failure_leaves_stopped (st : BridgeState)
    (projectRoot : String) (env : StartEnv) (hwf : BridgeWF st)
    (hfail : env.handshakeOk = false) (hbin : env.binFound = true) :
    (startBridge st projectRoot env).1 =
      .error ("Failed to initialize MCP: " ++ env.handshakeErr) ∧
    (startBridge st projectRoot env).2.mcpProcess = none ∧
    (getStatus (startBridge st projectRoot env).2).running = false ∧
    (startBridge st projectRoot env).2.alive = [] := by
  obtain ⟨halive, hinit⟩ := hwf
  cases hproc : st.mcpProcess with
  | none =>
    have hi : st.initDone = false := hinit hproc
    have ha : st.alive = [] := by rw [halive, hproc]; rfl
    simp [startBridge, stopBridge, bridgeCleanup, getStatus, hproc, hi, ha,
      hfail, hbin]
  | some pid =>
    have ha : st.alive = [pid] := by rw [halive, hproc]; rfl
    simp [startBridge, stopBridge, bridgeCleanup, getStatus, hproc, ha,
      hfail, hbin]

/-- Witness for C5 on the fresh bridge with a timing-out handshake. -/
theorem c5_witness :
    (startBridge initialBridge "/proj"
      { binFound := true, newPid := 7, handshakeOk := false,
        handshakeErr := "Request timeout: initialize", toolsFirst := [],
        toolsRetry := [] }).1 =
      .error "Failed to initialize MCP: Request timeout: initialize" ∧
    (getStatus (startBridge initialBridge "/proj"
      { binFound := true, newPid := 7, handshakeOk := false,
        handshakeErr := "Request timeout: initialize", toolsFirst := [],
        toolsRetry := [] }).2).running = false := by
  have h := c5_handshake_failure_leaves_stopped initialBridge "/proj"
    { binFound := true, newPid := 7, handshakeOk := false,
      handshakeErr := "Request timeout: initialize", toolsFirst := [],
      toolsRetry := [] } ⟨rfl, fun _ => rfl⟩ rfl rfl
  exact ⟨h.1, h.2.2.1⟩

/-- With spare ceiling, a non-empty catalog, smart detection and a
tool-requiring intent, a tool-less reply makes `analyzeRetry` retry,
advancing the attempt counter and emitting the nudge for the new attempt. -/
theorem analyzeRetry_smart_retry (ctx : RetryCtx) (tools : List McpTool)
    (cfg : RetryCfg) (hlt : ctx.attemptCount < cfg.maxRetries)
    (htools : tools ≠ []) (hsm : cfg.enableSmartDetection = true)
    (hneed : (analyzeUserIntent ctx.originalMessage tools).needsTool = true) :
    analyzeRetry ctx [] tools cfg =
      ({ shouldRetry := true
         reason := some (smartReason ctx.originalMessage tools)
         nudgeMessage := some (buildNudgeMessage (ctx.attemptCount + 1)
           (analyzeUserIntent ctx.originalMessage tools).suggestedTools) },
       { ctx with
           previousReasons :=
             ctx.previousReasons ++ [smartReason ctx.originalMessage tools]
           attemptCount := ctx.attemptCount + 1 }) := by
  have hlen : ¬ tools.length = 0 := by
    simpa [List.length_eq_zero] using htools
  have hnotge : ¬ ctx.attemptCount ≥ cfg.maxRetries := Nat.not_le.mpr hlt
  simp [analyzeRetry, smartReason, hnotge, hlen, hsm, hneed]

/-- Once the attempt ceiling is reached, a tool-less reply stops the loop
with the context untouched. -/
theorem analyzeRetry_stop (ctx : RetryCtx) (tools : List McpTool)
    (cfg : RetryCfg) (hge : cfg.maxRetries ≤ ctx.attemptCount) :
    analyzeRetry ctx [] tools cfg =
      ({ shouldRetry := false
         reason := some ("已达到最大重试次数 (" ++ toString cfg.maxRetries ++ ")") },
       ctx) := by
  simp [analyzeRetry, hge]

/-- `analyzeRetry` never pushes the attempt counter beyond the ceiling. -/
theorem analyzeRetry_attempt_le (ctx : RetryCtx) (toolCalls : List ToolCallReq)
    (tools : List McpTool) (cfg : RetryCfg)
    (h : ctx.attemptCount ≤ cfg.maxRetries) :
    (analyzeRetry ctx toolCalls tools cfg).2.attemptCount ≤ cfg.maxRetries := by
  by_cases hn : (analyzeUserIntent ctx.originalMessage tools).needsTool <;>
    · unfold analyzeRetry
      split_ifs <;> simp_all <;> omega

/-- The retry loop never pushes the attempt counter beyond the ceiling. -/
theorem retryLoop_attempt_le (llm : Nat → LlmResult) (tools : List McpTool)
    (cfg : RetryCfg) :
    ∀ (fuel : Nat) (st : RetryRunState),
      st.ctx.attemptCount ≤ cfg.maxRetries →
      (retryLoop llm tools cfg fuel st).ctx.attemptCount ≤ cfg.maxRetries := by
  intro fuel
  induction fuel with
  | zero => intro st h; exact h
  | succ n ih =>
    intro st h
    show (retryLoop llm tools cfg (n + 1) st).ctx.attemptCount ≤ _
    rw [retryLoop]
    split
    · exact ih _ (analyzeRetry_attempt_le _ _ _ _ h)
    · exact analyzeRetry_attempt_le _ _ _ _ h

/-- Driving lemma for C6: under smart detection with a tool-requiring
intent, a catalog and a model that never emits tool calls, the loop runs the
attempt counter exactly up to the ceiling, regenerating once per attempt and
nudging once per regeneration. -/
theorem retryLoop_exhausts (llm : Nat → LlmResult) (tools : List McpTool)
    (cfg : RetryCfg) (hsm : cfg.enableSmartDetection = true)
    (htools : tools ≠ []) (hllm : ∀ k, (llm k).toolCalls = []) :
    ∀ (fuel : Nat) (st : RetryRunState),
      st.ctx.attemptCount + fuel = cfg.maxRetries + 1 →
      st.ctx.attemptCount ≤ cfg.maxRetries →
      st.result = llm (st.llmCalls - 1) →
      (analyzeUserIntent st.ctx.originalMessage tools).needsTool = true →
      (retryLoop llm tools cfg fuel st).ctx.attemptCount = cfg.maxRetries ∧
      (retryLoop llm tools cfg fuel st).llmCalls =
        st.llmCalls + (cfg.maxRetries - st.ctx.attemptCount) ∧
      (retryLoop llm tools cfg fuel st).nudges.length =
        st.nudges.length + (cfg.maxRetries - st.ctx.attemptCount) ∧
      (retryLoop llm tools cfg fuel st).result =
        llm ((retryLoop llm tools cfg fuel st).llmCalls - 1) ∧
      (retryLoop llm tools cfg fuel st).ctx.originalMessage =
        st.ctx.originalMessage := by
  intro fuel
  induction fuel with
  | zero => intro st hsum hle _ _; omega
  | succ n ih =>
    intro st hsum hle hres hneed
    have htc : st.result.toolCalls = [] := by rw [hres]; exact hllm _
    by_cases hceil : st.ctx.attemptCount = cfg.maxRetries
    · have hstop := analyzeRetry_stop st.ctx tools cfg (le_of_eq hceil.symm)
      have hstep : retryLoop llm tools cfg (n + 1) st = st := by
        rw [retryLoop, htc, hstop]
        rfl
      rw [hstep]
      exact ⟨hceil, by omega, by omega, hres, rfl⟩
    · have hlt : st.ctx.attemptCount < cfg.maxRetries :=
        lt_of_le_of_ne hle hceil
      have hsmart :=
        analyzeRetry_smart_retry st.ctx tools cfg hlt htools hsm hneed
      set st1 : RetryRunState :=
        { result := llm st.llmCalls
          ctx := { st.ctx with
            previousReasons :=
              st.ctx.previousReasons ++ [smartReason st.ctx.originalMessage tools]
            attemptCount := st.ctx.attemptCount + 1 }
          llmCalls := st.llmCalls + 1
          pushed := st.pushed ++
            ((if st.result.content ≠ "" then
               [{ role := Role.assistant, content := st.result.content }]
              else []) ++
             [buildNudgeMessage (st.ctx.attemptCount + 1)
               (analyzeUserIntent st.ctx.originalMessage tools).suggestedTools])
          nudges := st.nudges ++
            [buildNudgeMessage (st.ctx.attemptCount + 1)
              (analyzeUserIntent st.ctx.originalMessage tools).suggestedTools] }
        with hst1
      have hstep : retryLoop llm tools cfg (n + 1) st =
          retryLoop llm tools cfg n st1 := by
        rw [retryLoop, htc, hsmart]
        rfl
      obtain ⟨ih1, ih2, ih3, ih4, ih5⟩ := ih st1
        (by show st.ctx.attemptCount + 1 + n = _; omega)
        (by show st.ctx.attemptCount + 1 ≤ _; omega)
        (by show llm st.llmCalls = llm (st.llmCalls + 1 - 1); simp)
        (by show (analyzeUserIntent st.ctx.originalMessage tools).needsTool = true
            exact hneed)
      rw [hstep]
      refine ⟨ih1, ?_, ?_, ih4, by rw [ih5]⟩
      · rw [ih2]
        show st.llmCalls + 1 + (cfg.maxRetries - (st.ctx.attemptCount + 1)) = _
        omega
      · rw [ih3]
        show (st.nudges ++ [_]).length + (cfg.maxRetries - (st.ctx.attemptCount + 1)) = _
        simp
        omega

/-- Claim C6: with `maxRetries = 2`, smart detection on, a non-empty
catalog, a user message carrying a retry-eligible intent, and a model that
never emits tool calls, the turn performs exactly 2 nudged regenerations (3
generations in total, never a third retry) and the tool-less reply is
annotated with the attempt count 2; in general the attempt counter never
exceeds the configured ceiling. -/
theorem c6_exactly_two_retries (llm : Nat → LlmResult) (tools : List McpTool)
    (cfg : RetryCfg) (msg : String) (hmax : cfg.maxRetries = 2)
    (hsm : cfg.enableSmartDetection = true) (htools : tools ≠ [])
    (hneed : (analyzeUserIntent msg tools).needsTool = true)
    (hllm : ∀ k, (llm k).toolCalls = []) :
    (chatWithRetry llm tools cfg msg).ctx.attemptCount = 2 ∧
    (chatWithRetry llm tools cfg msg).llmCalls = 3 ∧
    (chatWithRetry llm tools cfg msg).nudges.length = 2 ∧
    (chatWithRetry llm tools cfg msg).result = llm 2 ∧
    annotateNoTools (chatWithRetry llm tools cfg msg).result.content
        (chatWithRetry llm tools cfg msg).ctx.attemptCount =
      (llm 2).content ++
        "\n\n[系统: 已尝试 2 次引导工具调用，模型仍选择文本回复]" ∧
    (∀ (llm' : Nat → LlmResult) (tools' : List McpTool) (cfg' : RetryCfg)
        (msg' : String),
      (chatWithRetry llm' tools' cfg' msg').ctx.attemptCount ≤
        cfg'.maxRetries) := by
  obtain ⟨h1, h2, h3, h4, -⟩ := retryLoop_exhausts llm tools cfg hsm htools hllm
    (cfg.maxRetries + 1)
    { result := llm 0, ctx := createContext msg, llmCalls := 1,
      pushed := [], nudges := [] }
    (by show 0 + (cfg.maxRetries + 1) = cfg.maxRetries + 1; omega)
    (by show 0 ≤ cfg.maxRetries; omega)
    (by show llm 0 = llm (1 - 1); rfl)
    (by show (analyzeUserIntent msg tools).needsTool = true; exact hneed)
  have hA : (chatWithRetry llm tools cfg msg).ctx.attemptCount = 2 := by
    show (retryLoop llm tools cfg (cfg.maxRetries + 1)
      { result := llm 0, ctx := createContext msg, llmCalls := 1,
        pushed := [], nudges := [] }).ctx.attemptCount = 2
    rw [h1, hmax]
  have hB : (chatWithRetry llm tools cfg msg).llmCalls = 3 := by
    show (retryLoop llm tools cfg (cfg.maxRetries + 1)
      { result := llm 0, ctx := createContext msg, llmCalls := 1,
        pushed := [], nudges := [] }).llmCalls = 3
    rw [h2]
    dsimp only
    rw [hmax]
    rfl
  have hC : (chatWithRetry llm tools cfg msg).nudges.length = 2 := by
    show (retryLoop llm tools cfg (cfg.maxRetries + 1)
      { result := llm 0, ctx := createContext msg, llmCalls := 1,
        pushed := [], nudges := [] }).nudges.length = 2
    rw [h3]
    dsimp only
    rw [hmax]
    rfl
  have hD : (chatWithRetry llm tools cfg msg).result = llm 2 := by
    have hD0 : (chatWithRetry llm tools cfg msg).result =
        llm ((chatWithRetry llm tools cfg msg).llmCalls - 1) := h4
    rw [hD0, hB]
  refine ⟨hA, hB, hC, hD, ?_, ?_⟩
  · rw [hD, hA]
    rfl
  · intro llm' tools' cfg' msg'
    exact retryLoop_attempt_le llm' tools' cfg' _ _ (Nat.zero_le _)

/-- Witness for C6: the write-intent message `写入 start.txt` against a
one-tool catalog and a model that always answers in text. -/
theorem c6_witness :
    (chatWithRetry (fun _ => { content := "text", toolCalls := [] })
      [{ name := "write_to_file", description := none }]
      { maxRetries := 2, retryDelayMs := 500, enableSmartDetection := true }
      "写入 start.txt").ctx.attemptCount = 2 ∧
    (chatWithRetry (fun _ => { content := "text", toolCalls := [] })
      [{ name := "write_to_file", description := none }]
      { maxRetries := 2, retryDelayMs := 500, enableSmartDetection := true }
      "写入 start.txt").llmCalls = 3 := by
  have h := c6_exactly_two_retries
    (fun _ => { content := "text", toolCalls := [] })
    [{ name := "write_to_file", description := none }]
    { maxRetries := 2, retryDelayMs := 500, enableSmartDetection := true }
    "写入 start.txt" rfl rfl (by simp) (by decide) (fun _ => rfl)
  exact ⟨h.1, h.2.1⟩

/-- Claim C7: with smart detection on, a message matching none of the intent
patterns and mentioning no catalog tool name yields no retry: `analyzeRetry`
declines and the loop performs zero nudged regenerations (one single
generation), even with a non-empty catalog and a tool-less model reply. -/
theorem c7_no_intent_no_retry (llm : Nat → LlmResult) (tools : List McpTool)
    (cfg : RetryCfg) (msg : String)
    (hsm : cfg.enableSmartDetection = true)
    (hpat : ∀ p ∈ TOOL_INTENT_PATTERNS, patternTest p msg = false)
    (hment : ∀ t ∈ tools, mentionsTool msg t.name = false)
    (hllm : ∀ k, (llm k).toolCalls = []) :
    (analyzeRetry (createContext msg) [] tools cfg).1.shouldRetry = false ∧
    (chatWithRetry llm tools cfg msg).ctx.attemptCount = 0 ∧
    (chatWithRetry llm tools cfg msg).llmCalls = 1 ∧
    (chatWithRetry llm tools cfg msg).nudges = [] := by
  have hni : (analyzeUserIntent msg tools).needsTool = false := by
    unfold analyzeUserIntent
    have hfind : TOOL_INTENT_PATTERNS.find? (fun p => patternTest p msg)
        = none := by
      rw [List.find?_eq_none]
      intro p hp
      simp [hpat p hp]
    have hfil : (tools.map (fun t => t.name)).filter
        (fun n => mentionsTool msg n) = [] := by
      rw [List.filter_eq_nil]
      intro n hn
      obtain ⟨t, ht, rfl⟩ := List.mem_map.mp hn
      simp [hment t ht]
    simp [hfind, hfil]
  have hsr : (analyzeRetry (createContext msg) [] tools cfg).1.shouldRetry
        = false ∧
      (analyzeRetry (createContext msg) [] tools cfg).2 = createContext msg := by
    unfold analyzeRetry
    split_ifs <;> simp_all [createContext]
  have hloop : chatWithRetry llm tools cfg msg =
      { result := llm 0, ctx := createContext msg, llmCalls := 1,
        pushed := [], nudges := [] } := by
    show retryLoop llm tools cfg (cfg.maxRetries + 1) _ = _
    rw [retryLoop]
    dsimp only
    rw [hllm 0]
    simp [hsr.1, hsr.2]
  exact ⟨hsr.1, by rw [hloop]; rfl, by rw [hloop], by rw [hloop]⟩

/-- Witness for C7: the greeting `你好` matches no pattern and mentions no
tool, so the loop answers in one generation with no nudges. -/
theorem c7_witness :
    (chatWithRetry (fun _ => { content := "hi", toolCalls := [] })
      [{ name := "list_files", description := none }]
      { maxRetries := 2, retryDelayMs := 500, enableSmartDetection := true }
      "你好").ctx.attemptCount = 0 ∧
    (chatWithRetry (fun _ => { content := "hi", toolCalls := [] })
      [{ name := "list_files", description := none }]
      { maxRetries := 2, retryDelayMs := 500, enableSmartDetection := true }
      "你好").nudges = [] := by
  have h := c7_no_intent_no_retry
    (fun _ => { content := "hi", toolCalls := [] })
    [{ name := "list_files", description := none }]
    { maxRetries := 2, retryDelayMs := 500, enableSmartDetection := true }
    "你好" rfl (by decide) (by decide) (fun _ => rfl)
  exact ⟨h.2.1, h.2.2.2⟩

/-- A failing HTTP attempt below the attempt ceiling is retried with the
backoff of its attempt index, whether or not its status is in the
"retriable" set — the non-retriable `throw` lands in the same `catch` that
retries. -/
theorem llmAttempt_httpErr_retry (fetch : Nat → FetchOutcome) (fuel attempt
    reqs : Nat) (ds : List Nat) (s : Nat) (h : fetch attempt = .httpErr s)
    (hlt : attempt < 2) :
    llmAttempt fetch (fuel + 1) attempt reqs ds =
      llmAttempt fetch fuel (attempt + 1) (reqs + 1)
        (ds ++ [backoffDelay attempt]) := by
  rw [llmAttempt, h]
  dsimp only
  by_cases hr : s = 429 ∨ s ≥ 500
  · rw [if_pos ⟨hr, hlt⟩]
  · rw [if_neg (fun hc => hr hc.1), if_pos hlt]

/-- A failing network attempt below the ceiling is retried likewise. -/
theorem llmAttempt_netErr_retry (fetch : Nat → FetchOutcome) (fuel attempt
    reqs : Nat) (ds : List Nat) (h : fetch attempt = .netErr)
    (hlt : attempt < 2) :
    llmAttempt fetch (fuel + 1) attempt reqs ds =
      llmAttempt fetch fuel (attempt + 1) (reqs + 1)
        (ds ++ [backoffDelay attempt]) := by
  rw [llmAttempt, h]
  dsimp only
  rw [if_pos hlt]

/-- The third failing attempt surfaces the classified error. -/
theorem llmAttempt_final_fail (fetch : Nat → FetchOutcome) (fuel reqs : Nat)
    (ds : List Nat) (o : FetchOutcome) (h : fetch 2 = o)
    (hf : fetchFails o = true) :
    llmAttempt fetch (fuel + 1) 2 reqs ds =
      { result := .error (classifyFinal o), requests := reqs + 1,
        delays := ds } := by
  cases o with
  | ok r => exact absurd hf (by simp [fetchFails])
  | httpErr s => simp [llmAttempt, h, classifyFinal]
  | netErr => simp [llmAttempt, h, classifyFinal]

/-- Claim C8 (corrected): with no credential the gateway fails immediately
with zero requests; a success returns at once; but EVERY failing attempt —
any HTTP error including non-429 4xx, or a network error — is retried up to
2 additional times with backoffs 500ms then 1500ms, and after three failures
the surfaced class is bad-gateway exactly when the **final** failure is HTTP
≥500 or a network error, bad-request otherwise (including exhausted 429). -/
theorem c8_gateway_classification (fetch : Nat → FetchOutcome) :
    llmChat false fetch =
      { result := .error .credentialMissing, requests := 0, delays := [] } ∧
    (∀ r, fetch 0 = .ok r →
      llmChat true fetch = { result := .ok r, requests := 1, delays := [] }) ∧
    (∀ o0 o1 o2, fetch 0 = o0 → fetch 1 = o1 → fetch 2 = o2 →
      fetchFails o0 = true → fetchFails o1 = true → fetchFails o2 = true →
      llmChat true fetch =
        { result := .error (classifyFinal o2), requests := 3,
          delays := [500, 1500] }) := by
  refine ⟨rfl, ?_, ?_⟩
  · intro r h0
    show llmAttempt fetch 3 0 0 [] = _
    rw [llmAttempt, h0]
  · intro o0 o1 o2 h0 h1 h2 hf0 hf1 hf2
    show llmAttempt fetch 3 0 0 [] = _
    have step0 : llmAttempt fetch 3 0 0 [] =
        llmAttempt fetch 2 1 1 [backoffDelay 0] := by
      cases o0 with
      | ok r => exact absurd hf0 (by simp [fetchFails])
      | httpErr s =>
        simpa using llmAttempt_httpErr_retry fetch 2 0 0 [] s h0 (by omega)
      | netErr =>
        simpa using llmAttempt_netErr_retry fetch 2 0 0 [] h0 (by omega)
    have step1 : llmAttempt fetch 2 1 1 [backoffDelay 0] =
        llmAttempt fetch 1 2 2 [backoffDelay 0, backoffDelay 1] := by
      cases o1 with
      | ok r => exact absurd hf1 (by simp [fetchFails])
      | httpErr s =>
        simpa using
          llmAttempt_httpErr_retry fetch 1 1 1 [backoffDelay 0] s h1 (by omega)
      | netErr =>
        simpa using
          llmAttempt_netErr_retry fetch 1 1 1 [backoffDelay 0] h1 (by omega)
    rw [step0, step1,
      llmAttempt_final_fail fetch 0 2 [backoffDelay 0, backoffDelay 1] o2 h2 hf2]
    rfl

/-- Witness for C8 (amended): persistent 503s are retried twice with the
fixed backoffs and surface as bad-gateway; a missing credential fails with
no request. -/
theorem c8_witness :
    llmChat true (fun _ => FetchOutcome.httpErr 503) =
      { result := .error .badGateway, requests := 3, delays := [500, 1500] } ∧
    llmChat false (fun _ => FetchOutcome.httpErr 503) =
      { result := .error .credentialMissing, requests := 0, delays := [] } := by
  constructor
  · have h := (c8_gateway_classification (fun _ => FetchOutcome.httpErr 503)).2.2
      (.httpErr 503) (.httpErr 503) (.httpErr 503) rfl rfl rfl rfl rfl rfl
    simpa [classifyFinal] using h
  · exact (c8_gateway_classification (fun _ => FetchOutcome.httpErr 503)).1

/-- Counterexample for C8 as stated: a persistent 400 — which the claim says
surfaces immediately with no retry — is in fact requested three times with
backoffs 500ms and 1500ms; and an exhausted 429 — which the claim says
surfaces as a transient bad-gateway error — surfaces as the permanent
bad-request class. -/
theorem c8_counterexample :
    (llmChat true (fun _ => FetchOutcome.httpErr 400)).requests = 3 ∧
    ¬ (llmChat true (fun _ => FetchOutcome.httpErr 400)).requests = 1 ∧
    (llmChat true (fun _ => FetchOutcome.httpErr 400)).delays = [500, 1500] ∧
    (llmChat true (fun _ => FetchOutcome.httpErr 429)).result =
      .error .badRequest ∧
    ¬ (llmChat true (fun _ => FetchOutcome.httpErr 429)).result =
      .error .badGateway := by
  refine ⟨rfl, by decide, rfl, rfl, ?_⟩
  intro h
  have h' : (Except.error GatewayErr.badRequest :
      Except GatewayErr LlmResult) = .error .badGateway := h
  cases Except.error.inj h'

/-- Claim C9 (corrected): a turn appends to the stored session history
exactly the inbound user message and the final assistant message, after
re-pinning the system prompt at index 0 (before the window copy is trimmed
to the most recent 12 entries); nudges and interim assistant texts issued by
the retry gate are pushed only onto the transient window copy, never onto
the stored history (see `c9_counterexample` for an issued nudge absent from
the stored history). -/
theorem c9_nudges_only_in_window (parse : String → Option Json)
    (exec : String → Json → Except CallFailure Json) (llm : Nat → LlmResult)
    (tools : List McpTool) (cfg : RetryCfg) (maxSteps : Nat)
    (sys message : String) (scenePath : Option String)
    (history0 : List ChatMsg) :
    (chatTurn parse exec llm tools cfg maxSteps sys message scenePath
        history0).newHistory =
      repinSystem sys history0 ++ [mkUserMsg message scenePath] ++
        [{ role := .assistant
           content := (chatTurn parse exec llm tools cfg maxSteps sys message
             scenePath history0).content }] ∧
    (chatTurn parse exec llm tools cfg maxSteps sys message scenePath
        history0).window =
      builtWindow sys message scenePath history0 ++
        (chatWithRetry llm tools cfg message).pushed ∧
    (chatTurn parse exec llm tools cfg maxSteps sys message scenePath
        history0).nudges = (chatWithRetry llm tools cfg message).nudges ∧
    (repinSystem sys history0).get? 0 =
      some { role := .system, content := sys } := by
  refine ⟨?_, ?_, ?_, ?_⟩
  · simp only [chatTurn]
    split <;> rfl
  · simp only [chatTurn]
    split <;> rfl
  · simp only [chatTurn]
    split <;> rfl
  · cases history0 with
    | nil => rfl
    | cons h t =>
      by_cases hr : h.role = .system <;> simp [repinSystem, hr]

/-- Counterexample for C9 as stated: in a fresh session with a write-intent
message and a text-only model, two nudges are issued, yet the stored history
ends the turn with exactly three messages (system, user, assistant) and
contains neither nudge — "every nudge that was issued is present in the
stored session history" is false. -/
theorem c9_counterexample :
    c9Turn.nudges.length = 2 ∧
    c9Turn.newHistory.length = 3 ∧
    (∀ n ∈ c9Turn.nudges, n ∉ c9Turn.newHistory) ∧
    ¬ (∀ n ∈ c9Turn.nudges, n ∈ c9Turn.newHistory) := by
  have hlen : c9Turn.nudges.length = 2 := by decide
  have hnot : ∀ n ∈ c9Turn.nudges, n ∉ c9Turn.newHistory := by decide
  refine ⟨hlen, by decide, hnot, ?_⟩
  intro hall
  have hmem : c9Turn.nudges.get ⟨0, by omega⟩ ∈ c9Turn.nudges :=
    List.get_mem _ _ _
  exact hnot _ hmem (hall _ hmem)

/-- Claim C10: whenever the stored history (after re-pin and user append)
holds more than 12 messages, the window handed to the LLM is exactly its
last 12 entries, which excludes index 0 — so when the system role lives only
at index 0, no system message reaches the model's context. -/
theorem c10_window_drops_system (parse : String → Option Json)
    (exec : String → Json → Except CallFailure Json) (llm : Nat → LlmResult)
    (tools : List McpTool) (cfg : RetryCfg) (maxSteps : Nat)
    (sys message : String) (scenePath : Option String)
    (history0 : List ChatMsg)
    (hlen : (repinSystem sys history0 ++ [mkUserMsg message scenePath]).length
      > 12)
    (hrest : ∀ m ∈ (repinSystem sys history0 ++
      [mkUserMsg message scenePath]).drop 1, m.role ≠ .system) :
    builtWindow sys message scenePath history0 =
      (repinSystem sys history0 ++ [mkUserMsg message scenePath]).drop
        ((repinSystem sys history0 ++ [mkUserMsg message scenePath]).length
          - 12) ∧
    (builtWindow sys message scenePath history0).length = 12 ∧
    1 ≤ (repinSystem sys history0 ++ [mkUserMsg message scenePath]).length
      - 12 ∧
    (∀ m ∈ builtWindow sys message scenePath history0, m.role ≠ .system) ∧
    (chatTurn parse exec llm tools cfg maxSteps sys message scenePath
        history0).window =
      builtWindow sys message scenePath history0 ++
        (chatWithRetry llm tools cfg message).pushed := by
  refine ⟨rfl, ?_, by omega, ?_, ?_⟩
  · show ((repinSystem sys history0 ++ [mkUserMsg message scenePath]).drop
      ((repinSystem sys history0 ++ [mkUserMsg message scenePath]).length
        - 12)).length = 12
    rw [List.length_drop]
    omega
  · intro m hm
    apply hrest
    have hdd : ((repinSystem sys history0 ++
        [mkUserMsg message scenePath]).drop 1).drop
          ((repinSystem sys history0 ++
            [mkUserMsg message scenePath]).length - 13) =
        (repinSystem sys history0 ++ [mkUserMsg message scenePath]).drop
          ((repinSystem sys history0 ++
            [mkUserMsg message scenePath]).length - 12) := by
      rw [List.drop_drop]
      congr 1
      omega
    have hm' : m ∈ ((repinSystem sys history0 ++
        [mkUserMsg message scenePath]).drop 1).drop
          ((repinSystem sys history0 ++
            [mkUserMsg message scenePath]).length - 13) := by
      rw [hdd]
      exact hm
    exact List.drop_subset _ _ hm'
  · simp only [chatTurn]
    split <;> rfl

/-- Witness for C10: a 13-message stored history plus the inbound user
message yields a 12-entry window carrying no system-role message. -/
theorem c10_witness :
    (∀ m ∈ builtWindow "SYS" "hello" none c10History, m.role ≠ .system) ∧
    (builtWindow "SYS" "hello" none c10History).length = 12 := by
  have h := c10_window_drops_system parseNone execFail
    (fun _ => { content := "hi", toolCalls := [] }) []
    { maxRetries := 2, retryDelayMs := 500, enableSmartDetection := true }
    12 "SYS" "hello" none c10History (by decide) (by decide)
  exact ⟨h.2.2.2.1, h.2.1⟩

/-- Counterexample for C1 as stated: a turn requesting 13 mutating calls
records only 12 steps — the 13th mutating call gets no step at all (though
`callTool` is still never invoked for it), so "records a blocked step for
every mutating requested call" fails. -/
theorem c1_counterexample :
    c1Calls.length = 13 ∧ (∀ c ∈ c1Calls, c.name ∉ READ_ONLY_TOOLS) ∧
    c1Run.1.length = 12 ∧ c1Run.2 = [] ∧
    ¬ (∀ i c, c1Calls.get? i = some c → c.name ∉ READ_ONLY_TOOLS →
        ∃ s, c1Run.1.get? i = some s ∧ s.blocked = true) := by
  refine ⟨rfl, by decide, rfl, rfl, ?_⟩
  intro h
  obtain ⟨s, hs, -⟩ := h 12 { name := "write_to_file", arguments := "" }
    rfl (by decide)
  have hnone : c1Run.1.get? 12 = none := rfl
  rw [hnone] at hs
  exact Option.noConfusion hs

end WebGAL
